import Mathlib

set_option maxHeartbeats 1000000

namespace H5Coap

/-
Shallow embedding of the h5.coap CoAP client (morkai/h5.coap).
Bytes are naturals below 256, buffers are lists of naturals, strings are Lean
strings.  JS bitwise expressions on byte-sized operands are written in the
equivalent arithmetic form, with the original expression quoted in a comment.
-/

/-- Translation of the JS expression value.toString(16): lowercase hexadecimal
digits of a natural number, without padding. -/
def jsHexString (n : ℕ) : String :=
  String.mk (Nat.toDigits 16 n)

/-- Translation of helpers.convertToHexString (lib/helpers.js), with the default
empty separator used by every call site modelled here.  Note that the source pads
with a leading zero only when buffer[i] < 10 (a decimal bound), not below 16. -/
def convertToHexString (buffer : List ℕ) : String :=
  buffer.foldl (fun acc b => acc ++ (if b < 10 then "0" else "") ++ jsHexString b) ""

/-- Translation of helpers.encodeBlockSize: floor(log2 blockSize) - 4, clamped
to the interval [0, 6] (the lower clamp is implicit in natural subtraction). -/
def encodeBlockSize (blockSize : ℕ) : ℕ :=
  let blockSzx := Nat.log2 blockSize - 4
  if blockSzx > 6 then 6 else blockSzx

/-- Translation of helpers.decodeBlockSize: clamp szx to [0, 6], then 1 << (szx + 4). -/
def decodeBlockSize (blockSzx : ℕ) : ℕ :=
  let szx := if blockSzx > 6 then 6 else blockSzx
  2 ^ (szx + 4)

/-- Result of helpers.encodeNumericValue: either a list of uint bytes, or the
8-byte IEEE-754 big-endian double used by the source as a compatibility escape
(its byte content is floating point and is kept abstract). -/
inductive NumBytes where
  | uint (bytes : List ℕ)
  | double8
  deriving DecidableEq, Repr

/-- Translation of helpers.encodeNumericValue.  On natural-number inputs the JS
test Math.floor(value) !== value is always false, so the double branch is taken
exactly when the value exceeds 0xFFFFFFFF.  The byte expressions mirror the
masks of the source: for example (0xFF0000 AND value) >> 16 is value / 65536 % 256. -/
def encodeNumericValue (value : ℕ) : NumBytes :=
  if value > 0xFFFFFFFF then .double8
  else if value ≤ 0xFF then .uint [value]
  else if value ≤ 0xFFFF then .uint [value / 256, value % 256]
  else if value ≤ 0xFFFFFF then .uint [value / 65536 % 256, value / 256 % 256, value % 256]
  else .uint [value / 16777216 % 256, value / 65536 % 256, value / 256 % 256, value % 256]

/-- Translation of helpers.decodeNumericValue.  The 3-byte case mirrors the
source expression (buffer[1] << 8) OR (buffer[2] + (buffer[0] << 16 >>> 0)):
the plus binds tighter than the bitwise or, and for byte-sized inputs the three
summands occupy disjoint bit ranges, so the expression equals the big-endian
value.  Buffers of 8 or more bytes are read with readDoubleBE (IEEE-754), which
is not modelled; that branch returns 0 and no theorem below depends on it. -/
def decodeNumericValue (buffer : List ℕ) : ℕ :=
  match buffer with
  | [] => 0
  | [b0] => b0
  | [b0, b1] => b0 * 256 + b1
  | [b0, b1, b2] => b1 * 256 + (b2 + b0 * 65536)
  | b0 :: b1 :: b2 :: b3 :: rest =>
    if rest.length + 4 < 8 then b0 * 16777216 + b1 * 65536 + b2 * 256 + b3 else 0

/-
Registries (lib/codeRegistry.js and lib/optionNumberRegistry.js).  Both get
functions throw for an unregistered number; only the registered numbers matter
for the embedding, so the registries are modelled as the lists of numbers the
source registers.
-/

/-- Message code numbers registered in lib/codeRegistry.js. -/
def registeredCodes : List ℕ :=
  [0, 1, 2, 3, 4, 65, 66, 67, 68, 69, 128, 129, 130, 131, 132, 133, 134, 136,
   140, 141, 143, 160, 161, 162, 163, 164, 165]

/-- Option numbers registered in lib/optionNumberRegistry.js. -/
def registeredOptionNumbers : List ℕ :=
  [1, 3, 4, 5, 6, 7, 8, 11, 12, 14, 15, 16, 20, 23, 27, 28, 35, 39, 60]

/-- Containment of a character in a string (the JS indexOf test), computed on
the underlying character list so that concrete instances evaluate. -/
def strContainsChar (s : String) (c : Char) : Bool := s.data.contains c

/-- Splitting of a character list on a non-empty separator, mirroring the JS
String.prototype.split scan (left to right, non-overlapping).  The fuel is at
least the list length; one unit is spent per consumed character, so the fuel
never runs out on the initial call. -/
def splitChars (sep : List Char) : ℕ → List Char → List Char → List (List Char)
  | _, [], acc => [acc.reverse]
  | 0, rest, acc => [acc.reverse ++ rest]
  | fuel + 1, c :: rest, acc =>
    if sep.isPrefixOf (c :: rest) then
      acc.reverse :: splitChars sep fuel ((c :: rest).drop sep.length) []
    else
      splitChars sep fuel rest (c :: acc)

/-- JS String.prototype.split with a non-empty string separator. -/
def jsSplit (s : String) (sep : String) : List String :=
  (splitChars sep.data (s.data.length + 1) s.data []).map String.mk

/-- JS String.prototype.toLowerCase on the character list. -/
def jsToLower (s : String) : String := String.mk (s.data.map Char.toLower)

/-- JS Array.prototype.join on strings, via character lists. -/
def joinWith (sep : String) (parts : List String) : String :=
  String.mk (List.intercalate sep.data (parts.map String.data))

/-
Wire model: lib/Option.js, lib/Options.js, lib/Message.js.
-/

/-- Model of an Option (lib/Option.js): an option number and its value bytes.
A null data buffer and an empty data buffer behave identically in every code
path modelled here (serialized length 0), so both are represented by []. -/
structure COpt where
  number : ℕ
  data : List ℕ
  deriving DecidableEq, Repr

/-- Model of a Message (lib/Message.js).  The payload is None when the JS field
is null; setPayload turns an empty buffer into null, so Some always carries a
non-empty list in states produced by the setters.  The remote endpoint is kept
as its canonical string form (only used for keys), and the timestamp is the
Date.now() value recorded by setTimestamp. -/
structure Message where
  type : ℕ := 0
  code : ℕ := 0
  id : ℕ := 0
  token : List ℕ := []
  options : List COpt := []
  payload : Option (List ℕ) := none
  remoteEndpoint : String := "127.0.0.1"
  timestamp : ℤ := -1
  deriving DecidableEq, Repr

/-- Message.Type constants. -/
def TYPE_CON : ℕ := 0
/-- Message.Type.NON. -/
def TYPE_NON : ℕ := 1
/-- Message.Type.ACK. -/
def TYPE_ACK : ℕ := 2
/-- Message.Type.RST. -/
def TYPE_RST : ℕ := 3

/-- Stable comparator used by Options.prototype.sort: ascending option number
(Array.prototype.sort with the comparator a.getNumber() - b.getNumber(); the
engine sort is stable, so options sharing a number keep their relative order). -/
def optLE (a b : COpt) : Prop := a.number ≤ b.number

instance : DecidableRel optLE := fun a b => Nat.decLe a.number b.number

instance : IsTotal COpt optLE := ⟨fun a b => Nat.le_total a.number b.number⟩

instance : IsTrans COpt optLE := ⟨fun _ _ _ h1 h2 => Nat.le_trans h1 h2⟩

/-- Sorted order of an option list as produced by Options.prototype.sort. -/
def sortOptions (l : List COpt) : List COpt := List.insertionSort optLE l

/-- Nibble selection of Option.prototype.getOptionNibble: the value itself up
to 12, the escape 13 up to 255 + 13, and the escape 14 beyond. -/
def optionNibble (value : ℕ) : ℕ :=
  if value ≤ 12 then value
  else if value ≤ 0xFF + 13 then 13
  else 14

/-- Extension bytes of Option.prototype.pushExtendedOptionValue: one byte
value - 13 for nibble 13, a big-endian 16-bit value - 269 for nibble 14. -/
def extendedOptionBytes (nibble : ℕ) (value : ℕ) : List ℕ :=
  if nibble = 13 then [value - 13]
  else if nibble = 14 then [(value - 269) / 256, (value - 269) % 256]
  else []

/-- Translation of Option.prototype.serialize: header byte of delta and length
nibbles, extension bytes, then the data bytes. -/
def serializeOption (optionDelta : ℕ) (data : List ℕ) : List ℕ :=
  let deltaNibble := optionNibble optionDelta
  let lengthNibble := optionNibble data.length
  (deltaNibble * 16 + lengthNibble)
    :: (extendedOptionBytes deltaNibble optionDelta
        ++ extendedOptionBytes lengthNibble data.length
        ++ data)

/-- Translation of the loop of Options.prototype.serialize over an already
sorted option list, threading the last emitted option number. -/
def serializeOptionList (sorted : List COpt) (lastOptionNumber : ℕ) : List ℕ :=
  match sorted with
  | [] => []
  | o :: rest =>
    serializeOption (o.number - lastOptionNumber) o.data
      ++ serializeOptionList rest o.number

/-- Reading one byte from the front of the buffer (BufferReader.shiftByte);
running out of bytes is a reader error. -/
def readByte (bytes : List ℕ) : Except String (ℕ × List ℕ) :=
  match bytes with
  | [] => .error "Reader out of bounds."
  | b :: rest => .ok (b, rest)

/-- Reading a big-endian 16-bit value (BufferReader.shiftUInt16). -/
def readUInt16 (bytes : List ℕ) : Except String (ℕ × List ℕ) :=
  match bytes with
  | b0 :: b1 :: rest => .ok (b0 * 256 + b1, rest)
  | _ => .error "Reader out of bounds."

/-- Reading a fixed-length buffer (BufferReader.shiftBuffer). -/
def readBuffer (n : ℕ) (bytes : List ℕ) : Except String (List ℕ × List ℕ) :=
  if bytes.length < n then .error "Reader out of bounds."
  else .ok (bytes.take n, bytes.drop n)

/-- Decoding of an extended delta or length value given its nibble, as in
Options.unserialize: nibble 13 reads one byte and adds 13, nibble 14 reads a
16-bit value and adds 269, other nibbles stand for themselves. -/
def readExtendedValue (nibble : ℕ) (bytes : List ℕ) : Except String (ℕ × List ℕ) :=
  if nibble = 13 then do
    let (b, rest) ← readByte bytes
    .ok (b + 13, rest)
  else if nibble = 14 then do
    let (v, rest) ← readUInt16 bytes
    .ok (v + 269, rest)
  else .ok (nibble, bytes)

/-- Translation of the loop of Options.unserialize.  Returns the parsed options
in wire order together with the bytes left after the payload marker (or [] when
the buffer ended exactly at the last option).  The option construction throws
for an unregistered option number (Option constructor, optionNumberRegistry.get).
The fuel argument only bounds the recursion; each iteration consumes at least
the header byte, so fuel larger than the buffer length is never exhausted. -/
def unserializeOptionList (fuel : ℕ) (bytes : List ℕ) (lastOptionNumber : ℕ) :
    Except String (List COpt × List ℕ) :=
  match fuel, bytes with
  | _, [] => .ok ([], [])
  | 0, _ => .error "Reader out of bounds."
  | fuel + 1, optionHeader :: rest =>
    if optionHeader = 0xFF then .ok ([], rest)
    else
      -- optionDelta = (optionHeader AND 240) >> 4, optionLength = optionHeader AND 15
      let optionDelta := optionHeader / 16 % 16
      let optionLength := optionHeader % 16
      if (optionDelta = 15 ∧ optionLength ≠ 15) ∨ (optionLength = 15 ∧ optionDelta ≠ 15) then
        .error "Invalid payload marker."
      else do
        let (optionDelta, rest) ← readExtendedValue optionDelta rest
        let (optionLength, rest) ← readExtendedValue optionLength rest
        let (optionData, rest) ← readBuffer optionLength rest
        let optionNumber := lastOptionNumber + optionDelta
        if registeredOptionNumbers.contains optionNumber then do
          let (options, remaining) ← unserializeOptionList fuel rest optionNumber
          .ok (⟨optionNumber, optionData⟩ :: options, remaining)
        else .error "Unknown message option."

/-- Translation of Message.prototype.toBuffer.  The source packs the 32-bit
header word 0x40000000 OR (type << 28) OR (tokenLength << 24) OR (code << 16)
OR id and pushes it big-endian; for type below 4, token length below 16, code
below 256 and id below 65536 those four bytes are exactly the ones listed
below.  The options are serialized sorted (Options.prototype.serialize calls
sort first), and a 0xFF marker precedes a non-null payload. -/
def toBuffer (m : Message) : List ℕ :=
  (64 + m.type * 16 + m.token.length) :: m.code :: (m.id / 256) :: (m.id % 256)
    :: (m.token
        ++ (if m.options.isEmpty then [] else serializeOptionList (sortOptions m.options) 0)
        ++ (match m.payload with
            | none => []
            | some payload => 0xFF :: payload))

/-- Token part of Message.fromBuffer: the token bytes are shifted only when the
token-length nibble is positive. -/
def readTokenPart (tokenLength : ℕ) (bytes : List ℕ) :
    Except String (List ℕ × List ℕ) :=
  if tokenLength > 0 then readBuffer tokenLength bytes else .ok ([], bytes)

/-- Translation of Message.fromBuffer.  The now argument stands for the
Date.now() value used by setTimestamp.  The byte arithmetic mirrors the source
bit operations: buffer[0] >> 6 is division by 64, (firstByte AND 48) >> 4 is
firstByte / 16 % 4 and firstByte AND 15 is firstByte % 16.  setCode throws for
an unregistered code (codeRegistry.get) and setToken throws for a token longer
than 8 bytes. -/
def fromBuffer (now : ℤ) (buffer : List ℕ) : Except String Message := do
  let version := (buffer.headD 0) / 64
  if version ≠ 1 then .error "Invalid CoAP version." else do
  let (firstByte, rest) ← readByte buffer
  let (code, rest) ← readByte rest
  if (registeredCodes.contains code) = false then .error "Unknown message code." else do
  let (id, rest) ← readUInt16 rest
  let (token, rest) ← readTokenPart (firstByte % 16) rest
  if token.length > 8 then .error "Token is too long." else do
  if rest.isEmpty then
    .ok { type := firstByte / 16 % 4, code := code, id := id, token := token,
          options := [], payload := none, timestamp := now }
  else do
    let (options, remaining) ← unserializeOptionList (rest.length + 1) rest 0
    .ok { type := firstByte / 16 % 4, code := code, id := id, token := token,
          options := options,
          payload := if remaining.isEmpty then none else some remaining,
          timestamp := now }

/-- Translation of Message.getTypeString for the four valid type values. -/
def Message.getTypeString (m : Message) : String :=
  if m.type = 0 then "CON" else if m.type = 1 then "NON"
  else if m.type = 2 then "ACK" else "RST"

/-- Translation of Options.prototype.getFirstOption: first option with the
given number, in insertion order (the list is not sorted by this accessor). -/
def Message.getFirstOption (m : Message) (optionNumber : ℕ) : Option COpt :=
  m.options.find? (fun o => o.number == optionNumber)

/-- Translation of Options.prototype.hasOption. -/
def Message.hasOption (m : Message) (optionNumber : ℕ) : Bool :=
  m.options.any (fun o => o.number == optionNumber)

/-- Translation of Message.prototype.getObserve: -1 when the Observe option is
absent, its numeric value otherwise (a null option value decodes to 0). -/
def Message.getObserve (m : Message) : ℤ :=
  match m.getFirstOption 6 with
  | none => -1
  | some o => (decodeNumericValue o.data : ℤ)

/-- Translation of Message.prototype.getMaxAge: -1 when absent. -/
def Message.getMaxAge (m : Message) : ℤ :=
  match m.getFirstOption 14 with
  | none => -1
  | some o => (decodeNumericValue o.data : ℤ)

/-- Translation of Message.prototype.isConfirmable. -/
def Message.isConfirmable (m : Message) : Bool := m.type == 0

/-- Translation of Message.prototype.isReset. -/
def Message.isReset (m : Message) : Bool := m.type == 3

/-- Translation of Message.prototype.isEmptyAcknowledgement. -/
def Message.isEmptyAcknowledgement (m : Message) : Bool := m.code == 0 && m.type == 2

/-- Translation of CodeDefinition.prototype.isRequest: codes 1 through 31. -/
def Message.isRequest (m : Message) : Bool := 1 ≤ m.code && m.code ≤ 31

/-- Translation of Message.prototype.getPayload: the empty buffer for null. -/
def Message.getPayload (m : Message) : List ℕ := m.payload.getD []

/-- Translation of Message.prototype.getPayloadLength. -/
def Message.getPayloadLength (m : Message) : ℕ := (m.payload.getD []).length

/-- Translation of Message.prototype.getTokenString. -/
def Message.getTokenString (m : Message) : String := convertToHexString m.token

/-- Translation of Message.prototype.getExchangeKey: remote endpoint string,
a pipe, then the token hex string. -/
def Message.getExchangeKey (m : Message) : String :=
  m.remoteEndpoint ++ "|" ++ m.getTokenString

/-- Translation of Message.prototype.getTransactionKey. -/
def Message.getTransactionKey (m : Message) : String :=
  m.remoteEndpoint ++ "#" ++ toString m.id

/-- Translation of Message.prototype.getKey. -/
def Message.getKey (m : Message) : String :=
  m.getTransactionKey ++ "|" ++ m.getTypeString

/-- Translation of Message.prototype.createReply: a fresh message with the
given type and code, copying the id and the remote endpoint. -/
def Message.createReply (m : Message) (type : ℕ) (code : ℕ) : Message :=
  { type := type, code := code, id := m.id, remoteEndpoint := m.remoteEndpoint }

/-- Translation of Options.prototype.setOption: remove every option with the
same number, then push the new option at the end of the list. -/
def Message.setOption (m : Message) (o : COpt) : Message :=
  { m with options := (m.options.filter (fun x => x.number != o.number)) ++ [o] }

/-- Translation of Message.prototype.getAllOptions (sorted copy of the list). -/
def Message.getAllOptions (m : Message) : List COpt := sortOptions m.options

/-- Buffer.prototype.toString on option data, modelled as the code-point string
(faithful for the ASCII data exercised here). -/
def optionDataString (data : List ℕ) : String :=
  String.mk (data.map (fun b => Char.ofNat b))

/-- Translation of Message.prototype.getUriPath: a slash followed by the
Uri-Path option values joined with slashes. -/
def Message.getUriPath (m : Message) : String :=
  "/" ++ joinWith "/"
    ((m.options.filter (fun o => o.number == 11)).map (fun o => optionDataString o.data))

/-
BlockOption (lib/BlockOption.js).
-/

/-- Model of a BlockOption value: option number (or -1 when unknown), block
number, more flag, size exponent and the derived block size. -/
structure BlockOpt where
  optionNumber : ℤ
  num : ℤ
  m : Bool
  szx : ℕ
  size : ℕ
  deriving DecidableEq, Repr

/-- Translation of the BlockOption constructor, which derives size from szx. -/
def BlockOpt.make (optionNumber : ℤ) (num : ℤ) (m : Bool) (szx : ℕ) : BlockOpt :=
  { optionNumber := optionNumber, num := num, m := m, szx := szx,
    size := decodeBlockSize szx }

/-- Translation of BlockOption.decode.  The more flag is bit 3 of the last
byte ((lastByte AND 8) === 8, written lastByte / 8 % 2 = 1), szx is the low
three bits, and num is the big-endian value shifted right by 4. -/
def blockOptionDecode (data : List ℕ) (optionNumber : ℤ) : BlockOpt :=
  let lastByte := (data.getLast?).getD 0
  let m := decide (data.length > 0) && (lastByte / 8 % 2 == 1)
  let szx := if data.length > 0 then lastByte % 8 else 0
  let raw : ℕ :=
    match data with
    | [] => 0
    | [b0] => b0
    | [b0, b1] => b0 * 256 + b1
    | b0 :: b1 :: b2 :: _ => b0 * 65536 + (b1 * 256 + b2)
  BlockOpt.make optionNumber ((raw / 16 : ℕ) : ℤ) m szx

/-- Translation of BlockOption.encode: 1 to 3 big-endian bytes of num shifted
left by 4, with szx and (for the more flag) the value 8 OR-ed into the last
byte. -/
def blockOptionEncode (num : ℕ) (m : Bool) (szx : ℕ) : List ℕ :=
  let data :=
    if num ≤ 15 then [num % 16 * 16]
    else if num ≤ 4095 then [num / 16 % 256, num % 16 * 16]
    else [num / 4096 % 256, num / 16 % 256, num % 16 * 16]
  let lastByte := Nat.lor (Nat.lor ((data.getLast?).getD 0) szx) (if m then 8 else 0)
  data.dropLast ++ [lastByte]

/-- Translation of Message.prototype.getBlock1 and getBlock2 through
getBlockOption: decode the first option with the given number, or null. -/
def Message.getBlockOption (m : Message) (optionNumber : ℕ) : Option BlockOpt :=
  match m.getFirstOption optionNumber with
  | none => none
  | some o => some (blockOptionDecode o.data (optionNumber : ℤ))

/-
EndpointAddress (lib/EndpointAddress.js).
-/

/-- Translation of the group padding helper pad() in lib/EndpointAddress.js. -/
def padIpv6Group (s : String) : String :=
  if s.length = 4 then s
  else if s.length = 1 then "000" ++ s
  else if s.length = 2 then "00" ++ s
  else "0" ++ s

/-- Translation of expandIpv6 (lib/EndpointAddress.js).  An address whose
textual form is exactly 39 characters long is returned verbatim; otherwise the
string is split on the double colon, the gap is filled with 0000 groups, every
group is padded to 4 digits and the joined result is lower-cased. -/
def expandIpv6 (address : String) : String :=
  if address.length = 39 then address
  else
    let parts := jsSplit address "::"
    let basePart := jsSplit (parts.headD "") ":"
    let secondPart := if parts.length = 1 then [] else jsSplit (parts.getD 1 "") ":"
    let basePart := if basePart.length = 1 ∧ basePart.headD "" = "" then [] else basePart
    let secondPart :=
      if secondPart.length = 1 ∧ secondPart.headD "" = "" then [] else secondPart
    let gap := 8 - (basePart.length + secondPart.length)
    let result := basePart.map padIpv6Group
      ++ List.replicate gap "0000"
      ++ secondPart.map padIpv6Group
    jsToLower (joinWith ":" result)

/-- Model of an EndpointAddress value: the stored address string and port. -/
structure EndpointAddress where
  address : String
  port : ℕ
  deriving DecidableEq, Repr

/-- Translation of the EndpointAddress constructor: expandIpv6 is applied when
the address contains a colon; Number(port OR DEFAULT_PORT) makes a missing or
zero port the default 5683. -/
def EndpointAddress.make (address : String) (port : Option ℕ) : EndpointAddress :=
  { address := if strContainsChar address ':' = false then address else expandIpv6 address,
    port := match port with
      | none => 5683
      | some p => if p = 0 then 5683 else p }

/-- Translation of EndpointAddress.prototype.isIPv6. -/
def EndpointAddress.isIPv6 (e : EndpointAddress) : Bool := strContainsChar e.address ':'

/-- Translation of EndpointAddress.prototype.toString: the address in square
brackets for IPv6, with the port appended when it is not the default. -/
def EndpointAddress.str (e : EndpointAddress) : String :=
  (if e.isIPv6 then "[" ++ e.address ++ "]" else e.address)
    ++ (if e.port ≠ 5683 then ":" ++ toString e.port else "")

/-
TokenManager (lib/TokenManager.js).  Acquired tokens are stored as hex-string
keys of a JS object; the object is modelled as the list of its keys.
-/

/-- State of a TokenManager instance. -/
structure TokenManagerState where
  maxSize : ℕ
  emptySafekeepingTime : ℤ
  currentValue : List ℕ
  currentIndex : ℕ
  maxReached : Bool
  acquiredTokens : List String
  emptyReleaseTime : ℤ
  deriving DecidableEq, Repr

/-- Translation of the TokenManager constructor. -/
def TokenManager.init (maxSize : ℕ) : TokenManagerState :=
  { maxSize := if 1 ≤ maxSize ∧ maxSize ≤ 8 then maxSize else 8,
    emptySafekeepingTime := 48000,
    currentValue := [0],
    currentIndex := 0,
    maxReached := false,
    acquiredTokens := [],
    emptyReleaseTime := 0 }

/-- Translation of TokenManager.prototype.isAcquired on a hex-string key. -/
def TokenManager.isAcquired (s : TokenManagerState) (tokenHex : String) : Bool :=
  s.acquiredTokens.contains tokenHex

/-- Setting acquiredTokens[key] = true (idempotent object-key insertion). -/
def TokenManager.markAcquired (s : TokenManagerState) (tokenHex : String) :
    TokenManagerState :=
  if s.acquiredTokens.contains tokenHex then s
  else { s with acquiredTokens := s.acquiredTokens ++ [tokenHex] }

/-- Translation of TokenManager.prototype.isValueMaxed. -/
def TokenManager.isValueMaxed (s : TokenManagerState) : Bool :=
  s.currentValue.all (· == 0xFF)

/-- Translation of TokenManager.prototype.resizeValue: grow the all-zero value
by one byte, or wrap back to the single byte 0 when maxSize is exceeded. -/
def TokenManager.resizeValue (s : TokenManagerState) : TokenManagerState :=
  if s.currentValue.length + 1 > s.maxSize then
    { s with currentValue := [0], currentIndex := 0 }
  else
    { s with currentValue := List.replicate (s.currentValue.length + 1) 0,
             currentIndex := 0 }

/-- Little-endian carry of incrementValue: zero the run of 0xFF bytes starting
at the current index (which is always 0 when incrementValue runs) and increment
the first byte that is not 0xFF; the all-0xFF value is diverted to resizeValue
by nextValue before incrementValue can see it. -/
def incrementBytes : List ℕ → List ℕ
  | [] => []
  | b :: rest => if b = 0xFF then 0 :: incrementBytes rest else (b + 1) :: rest

/-- Translation of TokenManager.prototype.incrementValue. -/
def TokenManager.incrementValue (s : TokenManagerState) : TokenManagerState :=
  { s with currentValue := incrementBytes s.currentValue, currentIndex := 0 }

/-- Translation of TokenManager.prototype.nextValue. -/
def TokenManager.nextValue (s : TokenManagerState) : TokenManagerState :=
  if TokenManager.isValueMaxed s then TokenManager.resizeValue s
  else TokenManager.incrementValue s

/-- Translation of the do-while loop in acquire that skips values still in use.
The loop is guarded by maxReached, which the constructor initialises to false
and which no other statement in the source ever assigns, so this branch is
unreachable; the fuel argument bounds the recursion. -/
def TokenManager.skipAcquired (fuel : ℕ) (s : TokenManagerState) : TokenManagerState :=
  match fuel with
  | 0 => s
  | fuel + 1 =>
    let s := TokenManager.nextValue s
    if TokenManager.isAcquired s (convertToHexString s.currentValue) then
      TokenManager.skipAcquired fuel s
    else s

/-- Translation of TokenManager.prototype.acquire, with now standing for
Date.now().  The empty token is handed out when it is free and past its
safekeeping window; otherwise the counter advances once (the skip loop being
dead code behind maxReached) and the resulting value is marked and returned. -/
def TokenManager.acquire (s : TokenManagerState) (now : ℤ) :
    TokenManagerState × List ℕ :=
  if TokenManager.isAcquired s "" = false
      ∧ now - s.emptyReleaseTime > s.emptySafekeepingTime then
    (TokenManager.markAcquired s "", [])
  else
    let s := if s.maxReached = false then TokenManager.nextValue s
             else TokenManager.skipAcquired (2 ^ 64) s
    (TokenManager.markAcquired s (convertToHexString s.currentValue), s.currentValue)

/-- Translation of TokenManager.prototype.release on a hex-string key. -/
def TokenManager.release (s : TokenManagerState) (now : ℤ) (tokenHex : String) :
    TokenManagerState :=
  let s := if tokenHex = "" then { s with emptyReleaseTime := now } else s
  { s with acquiredTokens := s.acquiredTokens.filter (fun t => t ≠ tokenHex) }

/-- Decidable equality for Except results, used to evaluate concrete decodes. -/
instance {ε α : Type} [DecidableEq ε] [DecidableEq α] : DecidableEq (Except ε α) :=
  fun a b =>
    match a, b with
    | .ok x, .ok y =>
      if h : x = y then .isTrue (by rw [h]) else .isFalse (by intro hc; cases hc; exact h rfl)
    | .error x, .error y =>
      if h : x = y then .isTrue (by rw [h]) else .isFalse (by intro hc; cases hc; exact h rfl)
    | .ok _, .error _ => .isFalse (by intro hc; cases hc)
    | .error _, .ok _ => .isFalse (by intro hc; cases hc)

/-- Validity of a message for the round-trip law: version-1 representable
header fields, a token of at most 8 bytes, registered option numbers with
wire-representable value lengths, and a payload that is absent or non-empty.
All buffer entries are bytes. -/
def validMessage (m : Message) : Bool :=
  decide (m.type < 4) && registeredCodes.contains m.code && decide (m.id < 65536)
    && decide (m.token.length ≤ 8) && m.token.all (fun b => decide (b < 256))
    && m.options.all (fun o =>
        registeredOptionNumbers.contains o.number
          && decide (o.data.length ≤ 65804)
          && o.data.all (fun b => decide (b < 256)))
    && (match m.payload with
        | none => true
        | some p => !p.isEmpty && p.all (fun b => decide (b < 256)))

/-
Support lemmas for the round-trip proof.
-/

theorem exceptBind_ok {ε α β : Type} (a : α) (f : α → Except ε β) :
    (Except.ok (ε := ε) a >>= f) = f a := rfl

theorem optionNibble_le (v : ℕ) : optionNibble v ≤ 14 := by
  unfold optionNibble
  split <;> [omega; split <;> omega]

theorem mem_registeredOptionNumbers_le (x : ℕ)
    (h : registeredOptionNumbers.contains x = true) : x ≤ 60 := by
  have hx : x ∈ registeredOptionNumbers := by
    simpa using List.mem_of_elem_eq_true h
  simp only [registeredOptionNumbers, List.mem_cons, List.not_mem_nil, or_false] at hx
  omega

theorem readBuffer_append (a b : List ℕ) :
    readBuffer a.length (a ++ b) = .ok (a, b) := by
  unfold readBuffer
  rw [if_neg (by simp)]
  simp

theorem readExtendedValue_inv (v : ℕ) (rest : List ℕ) (hv : v ≤ 65804) :
    readExtendedValue (optionNibble v) (extendedOptionBytes (optionNibble v) v ++ rest)
      = .ok (v, rest) := by
  by_cases h12 : v ≤ 12
  · have hn : optionNibble v = v := by unfold optionNibble; rw [if_pos h12]
    have h13 : ¬ (v = 13) := by omega
    have h14 : ¬ (v = 14) := by omega
    rw [hn]
    simp [extendedOptionBytes, readExtendedValue, h13, h14]
  · by_cases h268 : v ≤ 0xFF + 13
    · have hn : optionNibble v = 13 := by
        unfold optionNibble; rw [if_neg h12, if_pos h268]
      have hc : v - 13 + 13 = v := by omega
      rw [hn]
      simp [extendedOptionBytes, readExtendedValue, readByte, exceptBind_ok, hc]
    · have hn : optionNibble v = 14 := by
        unfold optionNibble; rw [if_neg h12, if_neg h268]
      have h1 : (v - 269) / 256 * 256 + (v - 269) % 256 = v - 269 := by omega
      have h2 : v - 269 + 269 = v := by omega
      rw [hn]
      simp [extendedOptionBytes, readExtendedValue, readUInt16, exceptBind_ok, h1, h2]

theorem serializeOptionList_length_le (opts : List COpt) (last : ℕ) :
    opts.length ≤ (serializeOptionList opts last).length := by
  induction opts generalizing last with
  | nil => simp [serializeOptionList]
  | cons o rest ih =>
    simp only [serializeOptionList, serializeOption, List.length_cons,
      List.cons_append, List.length_append]
    have := ih o.number
    omega

theorem serializeOptionList_ne_nil (o : COpt) (rest : List COpt) (last : ℕ) :
    serializeOptionList (o :: rest) last ≠ [] := by
  simp [serializeOptionList, serializeOption]

/-- Inversion of the option parser on serializer output: parsing the bytes of
a sorted, registered, representable option list followed by either nothing or
a payload-marker tail recovers exactly that list and the tail after the marker. -/
theorem unserialize_serializeOptionList
    (opts : List COpt) (last : ℕ) (tail : List ℕ) (fuel : ℕ)
    (hfuel : opts.length < fuel)
    (hord : List.Sorted optLE opts)
    (hlast : ∀ o ∈ opts, last ≤ o.number)
    (hreg : ∀ o ∈ opts, registeredOptionNumbers.contains o.number = true)
    (hlen : ∀ o ∈ opts, o.data.length ≤ 65804)
    (htail : tail = [] ∨ ∃ p, tail = 0xFF :: p) :
    unserializeOptionList fuel (serializeOptionList opts last ++ tail) last
      = .ok (opts, tail.tail) := by
  induction opts generalizing last fuel with
  | nil =>
    rcases htail with h | ⟨p, h⟩ <;> subst h
    · cases fuel <;> simp [serializeOptionList, unserializeOptionList]
    · obtain ⟨f, rfl⟩ : ∃ f, fuel = f + 1 := ⟨fuel - 1, by omega⟩
      simp [serializeOptionList, unserializeOptionList]
  | cons o rest ih =>
    obtain ⟨f, rfl⟩ : ∃ f, fuel = f + 1 := ⟨fuel - 1, by omega⟩
    have hreg_o := hreg o (by simp)
    have hnum_le : o.number ≤ 60 := mem_registeredOptionNumbers_le _ hreg_o
    have hlast_o : last ≤ o.number := hlast o (by simp)
    have hdn := optionNibble_le (o.number - last)
    have hln := optionNibble_le o.data.length
    have hsorted := List.sorted_cons.mp hord
    simp only [serializeOptionList, serializeOption, List.cons_append, List.append_assoc]
    simp only [unserializeOptionList]
    rw [if_neg (by omega)]
    have hdiv : (optionNibble (o.number - last) * 16 + optionNibble o.data.length) / 16 % 16
        = optionNibble (o.number - last) := by omega
    have hmod : (optionNibble (o.number - last) * 16 + optionNibble o.data.length) % 16
        = optionNibble o.data.length := by omega
    rw [hdiv, hmod, if_neg (by omega)]
    rw [readExtendedValue_inv (o.number - last) _ (by omega)]
    simp only [exceptBind_ok]
    rw [readExtendedValue_inv o.data.length _ (hlen o (by simp))]
    simp only [exceptBind_ok]
    rw [readBuffer_append o.data _]
    simp only [exceptBind_ok]
    rw [Nat.add_sub_cancel' hlast_o]
    rw [if_pos hreg_o]
    rw [ih o.number f (by simpa using hfuel) hsorted.2
      (fun x hx => hsorted.1 x hx)
      (fun x hx => hreg x (by simp [hx]))
      (fun x hx => hlen x (by simp [hx]))]
    rfl

theorem filter_orderedInsert (n : ℕ) (a : COpt) (l : List COpt) :
    (List.orderedInsert optLE a l).filter (fun o => o.number == n)
      = (a :: l).filter (fun o => o.number == n) := by
  induction l with
  | nil => simp [List.orderedInsert]
  | cons b l ih =>
    by_cases hr : optLE a b
    · simp [List.orderedInsert, hr]
    · have hb : b.number < a.number := by simpa [optLE, Nat.not_le] using hr
      simp only [List.orderedInsert, if_neg hr]
      by_cases han : a.number = n
      · have hbn : ¬ (b.number = n) := by omega
        simp [List.filter_cons, han, hbn, ih]
      · by_cases hbn : b.number = n <;> simp [List.filter_cons, han, hbn, ih]

theorem filter_sortOptions (n : ℕ) (l : List COpt) :
    (sortOptions l).filter (fun o => o.number == n)
      = l.filter (fun o => o.number == n) := by
  induction l with
  | nil => rfl
  | cons a l ih =>
    have : sortOptions (a :: l) = List.orderedInsert optLE a (sortOptions l) := rfl
    rw [this, filter_orderedInsert]
    by_cases han : a.number = n <;> simp [List.filter_cons, han, ih]

theorem sortOptions_perm (l : List COpt) : (sortOptions l).Perm l :=
  List.perm_insertionSort optLE l

theorem sortOptions_sorted (l : List COpt) : List.Sorted optLE (sortOptions l) :=
  List.sorted_insertionSort optLE l

theorem tokenRead_eq (t r : List ℕ) :
    readTokenPart t.length (t ++ r) = Except.ok (ε := String) (t, r) := by
  cases t with
  | nil => simp [readTokenPart]
  | cons b t =>
    unfold readTokenPart
    rw [if_pos (by simp)]
    exact readBuffer_append (b :: t) r

theorem unserialize_marker (f : ℕ) (p : List ℕ) (last : ℕ) :
    unserializeOptionList (f + 1) (0xFF :: p) last = .ok ([], p) := by
  simp [unserializeOptionList]

/-- C1 main lemma: decoding the encoding of a valid message succeeds and
returns the message with its options stably sorted by number, the timestamp
set to the receive time and the remote endpoint left at its default. -/
theorem fromBuffer_toBuffer (m : Message) (now : ℤ) (h : validMessage m = true) :
    fromBuffer now (toBuffer m)
      = .ok { type := m.type, code := m.code, id := m.id, token := m.token,
              options := sortOptions m.options, payload := m.payload,
              remoteEndpoint := "127.0.0.1", timestamp := now } := by
  simp only [validMessage, Bool.and_eq_true, decide_eq_true_eq, List.all_eq_true] at h
  obtain ⟨⟨⟨⟨⟨⟨htype, hcode⟩, hid⟩, htoklen⟩, htokbytes⟩, hopts⟩, hpay⟩ := h
  have hb0div : (64 + m.type * 16 + m.token.length) / 64 = 1 := by omega
  have hb0type : (64 + m.type * 16 + m.token.length) / 16 % 4 = m.type := by omega
  have hb0tkl : (64 + m.type * 16 + m.token.length) % 16 = m.token.length := by omega
  have hidsplit : m.id / 256 * 256 + m.id % 256 = m.id := by omega
  simp only [toBuffer, fromBuffer, List.headD_cons, List.append_assoc]
  rw [hb0div]
  rw [if_neg (by simp)]
  simp only [readByte, exceptBind_ok]
  rw [hcode]
  rw [if_neg (by simp)]
  simp only [readUInt16, exceptBind_ok]
  rw [hidsplit, hb0tkl, tokenRead_eq m.token _]
  simp only [exceptBind_ok]
  rw [if_neg (by omega)]
  have hsnil : sortOptions ([] : List COpt) = [] := rfl
  by_cases hO : m.options.isEmpty
  · have hOnil : m.options = [] := by simpa using hO
    rw [if_pos hO]
    cases hp : m.payload with
    | none =>
      simp [hOnil, hsnil, hb0type]
    | some p =>
      have hpne : p.isEmpty = false := by
        rw [hp] at hpay
        simp only [Bool.and_eq_true, Bool.not_eq_true'] at hpay
        exact hpay.1
      simp only [List.nil_append]
      rw [show ((0xFF : ℕ) :: p).isEmpty = false from rfl]
      rw [if_neg (by simp)]
      rw [show (((0xFF : ℕ) :: p).length + 1) = (p.length + 1) + 1 by simp]
      rw [unserialize_marker]
      have hpne2 : p ≠ [] := by intro hc; rw [hc] at hpne; simp at hpne
      simp [hOnil, hsnil, hb0type, hpne2, exceptBind_ok]
  · rw [if_neg hO]
    have hOnnil : m.options ≠ [] := by simpa using hO
    have hsortne : sortOptions m.options ≠ [] := by
      intro hcontra
      have := (sortOptions_perm m.options).length_eq
      rw [hcontra] at this
      exact hOnnil (List.length_eq_zero.mp this.symm)
    set tail : List ℕ := (match m.payload with
      | none => ([] : List ℕ)
      | some payload => 0xFF :: payload) with htail_def
    have hserne : serializeOptionList (sortOptions m.options) 0 ≠ [] := by
      cases hs : sortOptions m.options with
      | nil => exact absurd hs hsortne
      | cons o os => exact serializeOptionList_ne_nil o os 0
    have hrestne : (serializeOptionList (sortOptions m.options) 0 ++ tail).isEmpty = false := by
      cases hsr : serializeOptionList (sortOptions m.options) 0 with
      | nil => exact absurd hsr hserne
      | cons b bs => rfl
    rw [hrestne]
    rw [if_neg (by simp)]
    have hparse := unserialize_serializeOptionList (sortOptions m.options) 0 tail
      ((serializeOptionList (sortOptions m.options) 0 ++ tail).length + 1)
      (by
        have h1 := serializeOptionList_length_le (sortOptions m.options) 0
        simp only [List.length_append]
        omega)
      (sortOptions_sorted m.options)
      (fun o _ => Nat.zero_le _)
      (fun o ho => ((hopts o ((sortOptions_perm m.options).mem_iff.mp ho)).1).1)
      (fun o ho => ((hopts o ((sortOptions_perm m.options).mem_iff.mp ho)).1).2)
      (by
        cases hp : m.payload with
        | none => exact Or.inl (by simp [htail_def, hp])
        | some p => exact Or.inr ⟨p, by simp [htail_def, hp]⟩)
    rw [hparse]
    simp only [exceptBind_ok]
    cases hp : m.payload with
    | none =>
      simp only [htail_def, hp]
      simp [hb0type, exceptBind_ok]
    | some p =>
      have hpne : p.isEmpty = false := by
        rw [hp] at hpay
        simp only [Bool.and_eq_true, Bool.not_eq_true'] at hpay
        exact hpay.1
      have hpne2 : p ≠ [] := by intro hc; rw [hc] at hpne; simp at hpne
      simp only [htail_def, hp]
      simp [hb0type, hpne2, exceptBind_ok]

theorem exceptBind_error {ε α β : Type} (e : ε) (f : α → Except ε β) :
    (Except.error (α := α) e >>= f) = .error e := rfl

theorem bind_eq_ok {ε α β : Type} {x : Except ε α} {f : α → Except ε β} {v : β} :
    (x >>= f) = .ok v ↔ ∃ a, x = .ok a ∧ f a = .ok v := by
  cases x with
  | ok a => simp [exceptBind_ok]
  | error e => simp [exceptBind_error]

/-- Every option produced by a successful run of the option parser carries a
registered option number: the Option constructor rejects all others. -/
theorem unserializeOptionList_registered (fuel : ℕ) :
    ∀ (bytes : List ℕ) (last : ℕ) (opts : List COpt) (rem : List ℕ),
      unserializeOptionList fuel bytes last = .ok (opts, rem) →
      ∀ o ∈ opts, registeredOptionNumbers.contains o.number = true := by
  induction fuel with
  | zero =>
    intro bytes last opts rem h o ho
    cases bytes with
    | nil =>
      simp only [unserializeOptionList, Except.ok.injEq, Prod.mk.injEq] at h
      rw [← h.1] at ho
      cases ho
    | cons b bs => simp [unserializeOptionList] at h
  | succ f ih =>
    intro bytes last opts rem h o ho
    cases bytes with
    | nil =>
      simp only [unserializeOptionList, Except.ok.injEq, Prod.mk.injEq] at h
      rw [← h.1] at ho
      cases ho
    | cons header rest =>
      by_cases h255 : header = 0xFF
      · subst h255
        simp only [unserializeOptionList, if_true, Except.ok.injEq, Prod.mk.injEq] at h
        rw [← h.1] at ho
        cases ho
      · simp only [unserializeOptionList, if_neg h255] at h
        split at h
        · exact absurd h (by simp)
        · rw [bind_eq_ok] at h
          obtain ⟨⟨delta, r1⟩, _, h⟩ := h
          rw [bind_eq_ok] at h
          obtain ⟨⟨len, r2⟩, _, h⟩ := h
          rw [bind_eq_ok] at h
          obtain ⟨⟨data, r3⟩, _, h⟩ := h
          split at h
          · rename_i hregd
            rw [bind_eq_ok] at h
            obtain ⟨⟨opts2, rem2⟩, hrec, hok⟩ := h
            simp only [Except.ok.injEq, Prod.mk.injEq] at hok
            rw [← hok.1] at ho
            cases ho with
            | head => exact hregd
            | tail _ htl => exact ih r3 (last + delta) opts2 rem2 hrec o htl
          · exact absurd h (by simp)

/-- Successful decodes never contain an option with an unregistered number. -/
theorem fromBuffer_options_registered (now : ℤ) (buffer : List ℕ) (m : Message)
    (h : fromBuffer now buffer = .ok m) :
    ∀ o ∈ m.options, registeredOptionNumbers.contains o.number = true := by
  intro o ho
  unfold fromBuffer at h
  dsimp only at h
  split at h
  · exact absurd h (by simp)
  · rw [bind_eq_ok] at h
    obtain ⟨⟨firstByte, r1⟩, _, h⟩ := h
    rw [bind_eq_ok] at h
    obtain ⟨⟨code, r2⟩, _, h⟩ := h
    split at h
    · exact absurd h (by simp)
    · rw [bind_eq_ok] at h
      obtain ⟨⟨id, r3⟩, _, h⟩ := h
      rw [bind_eq_ok] at h
      obtain ⟨⟨token, r4⟩, _, h⟩ := h
      split at h
      · exact absurd h (by simp)
      · split at h
        · simp only [Except.ok.injEq] at h
          rw [← h] at ho
          cases ho
        · rw [bind_eq_ok] at h
          obtain ⟨⟨opts, rem⟩, hrec, hok⟩ := h
          simp only [Except.ok.injEq] at hok
          rw [← hok] at ho
          exact unserializeOptionList_registered _ _ _ _ _ hrec o ho

/-- Wire-legal datagram carrying the unregistered option number 13: version 1,
type CON, code GET, id 1, no token, one empty option with delta 13 (escape
nibble 13 with extension byte 0). -/
def c2UnknownOptionBuffer : List ℕ := [64, 1, 0, 1, 208, 0]

/-- Valid datagram with the registered Uri-Path option, used as the witness
input for the amended C2 statement. -/
def c2OkBuffer : List ℕ := [65, 1, 0, 1, 7, 177, 116]

/-- Message decoded from c2OkBuffer. -/
def c2OkMessage : Message :=
  { type := 0, code := 1, id := 1, token := [7],
    options := [⟨11, [116]⟩], payload := none, timestamp := 0 }

/-
Token manager run used for claim C8.
-/

/-- Operations of a token manager script: acquire, or release of the token
acquired last.  Every call uses the constant clock value 1000000. -/
inductive TMOp where
  | acq
  | relLast

/-- Runner for a token manager script, returning the final state and the
tokens returned by the acquire calls in order. -/
def runTokenOps : TokenManagerState → List ℕ → List TMOp → TokenManagerState × List (List ℕ)
  | s, _, [] => (s, [])
  | s, lastTok, op :: ops =>
    match op with
    | .acq =>
      let (s2, t) := TokenManager.acquire s 1000000
      let (s3, ts) := runTokenOps s2 t ops
      (s3, t :: ts)
    | .relLast =>
      runTokenOps (TokenManager.release s 1000000 (convertToHexString lastTok)) lastTok ops

/-- Script driving a 1-byte token manager through a full counter cycle: the
empty token, then 0x01 (kept), then 0x02 through 0xFF and the wrapped 0x00
(each released immediately). -/
def c8Script : List TMOp :=
  [.acq, .acq] ++ (List.replicate 254 [TMOp.acq, TMOp.relLast]).flatten
    ++ [.acq, .relLast]

/-- Final state and acquire outputs of the C8 script. -/
def c8Run : TokenManagerState × List (List ℕ) :=
  runTokenOps (TokenManager.init 1) [] c8Script

/-
Claim theorems, wire codec group.
-/

/-- Concrete valid message used as the C1 witness input. -/
def c1ExampleMessage : Message :=
  { type := 0, code := 1, id := 4660, token := [196, 9],
    options := [⟨11, [116, 101]⟩, ⟨11, [104]⟩, ⟨6, []⟩], payload := some [50, 50] }

/-- C1: for every valid CoAP message (version 1, token of at most 8 bytes, all
option numbers registered, payload absent or non-empty), decoding the buffer
produced by encoding it succeeds and yields a message equal in type, code,
message id, token and payload, whose option multiset equals the original
(a permutation), with options sharing a number keeping their relative order;
remote endpoint and receive timestamp are excluded from the comparison. -/
theorem c1_roundtrip (m : Message) (now : ℤ) (h : validMessage m = true) :
    ∃ m2 : Message,
      fromBuffer now (toBuffer m) = .ok m2
        ∧ m2.type = m.type ∧ m2.code = m.code ∧ m2.id = m.id ∧ m2.token = m.token
        ∧ m2.payload = m.payload
        ∧ m2.options.Perm m.options
        ∧ ∀ n : ℕ, m2.options.filter (fun o => o.number == n)
            = m.options.filter (fun o => o.number == n) :=
  ⟨_, fromBuffer_toBuffer m now h, rfl, rfl, rfl, rfl, rfl,
    sortOptions_perm m.options, fun n => filter_sortOptions n m.options⟩

/-- Witness for C1 at a concrete valid request message. -/
theorem c1_roundtrip_witness :
    validMessage c1ExampleMessage = true
      ∧ ∃ m2 : Message,
          fromBuffer 5 (toBuffer c1ExampleMessage) = .ok m2
            ∧ m2.type = c1ExampleMessage.type ∧ m2.code = c1ExampleMessage.code
            ∧ m2.id = c1ExampleMessage.id ∧ m2.token = c1ExampleMessage.token
            ∧ m2.payload = c1ExampleMessage.payload
            ∧ m2.options.Perm c1ExampleMessage.options
            ∧ ∀ n : ℕ, m2.options.filter (fun o => o.number == n)
                = c1ExampleMessage.options.filter (fun o => o.number == n) :=
  ⟨by decide, c1_roundtrip c1ExampleMessage 5 (by decide)⟩

/-- C2 counterexample: a wire-legal datagram carrying the unregistered option
number 13 makes Message.fromBuffer fail with the Option-constructor error
instead of decoding to a message that retains the option as opaque. -/
theorem c2_unknown_option_decode_fails :
    fromBuffer 0 c2UnknownOptionBuffer = .error "Unknown message option." := by
  decide

/-- C2 amended: decoding never succeeds on a datagram whose option list uses a
number outside the static registry; every successful decode carries only
registered option numbers (unknown critical or elective options are rejected
by the Option constructor, not retained as opaque). -/
theorem c2_registered_options_only (now : ℤ) (buffer : List ℕ) (m : Message)
    (h : fromBuffer now buffer = .ok m) :
    ∀ o ∈ m.options, registeredOptionNumbers.contains o.number = true :=
  fromBuffer_options_registered now buffer m h

/-- Witness for the amended C2 at a concrete successful decode. -/
theorem c2_registered_options_only_witness :
    fromBuffer 0 c2OkBuffer = .ok c2OkMessage
      ∧ ∀ o ∈ c2OkMessage.options, registeredOptionNumbers.contains o.number = true :=
  ⟨by decide, fun o ho => c2_registered_options_only 0 c2OkBuffer c2OkMessage (by decide) o ho⟩

/-- C3: the exchange-key computation is not injective on tokens.  The hex
conversion pads a byte with a leading zero only when the byte is below 10
(decimal) instead of below 16, so the two distinct tokens 0x0A 0x0B and 0xAB
produce the same hex string ab, and two exchanges with these tokens at the
same endpoint collide on the key 127.0.0.1|ab. -/
theorem c3_exchange_key_collision :
    ({ token := [10, 11], remoteEndpoint := "127.0.0.1" } : Message).getExchangeKey
        = ({ token := [171], remoteEndpoint := "127.0.0.1" } : Message).getExchangeKey
      ∧ ({ token := [10, 11], remoteEndpoint := "127.0.0.1" } : Message).getExchangeKey
        = "127.0.0.1|ab"
      ∧ ([10, 11] : List ℕ) ≠ [171] := by
  decide

set_option maxRecDepth 100000 in
/-- C8: the source never sets maxReached to true, so the do-while loop meant
to skip tokens that are still in use is unreachable.  Driving a 1-byte token
manager through a full counter cycle with the token 0x01 still held, the
acquire call after the wrap returns 0x01 again even though it is in the
acquired set, and no release of 0x01 happened in between. -/
theorem c8_wraparound_duplicate :
    (c8Run.2.getD 1 []) = [1]
      ∧ TokenManager.isAcquired c8Run.1 (convertToHexString [1]) = true
      ∧ (TokenManager.acquire c8Run.1 1000000).2 = [1]
      ∧ c8Run.1.maxReached = false := by
  decide

/-- C9: expandIpv6 returns a 39-character textual form verbatim, skipping the
lower-casing step, so the fully expanded upper-case form and the compressed
form of the same IPv6 address (differing only in double-colon compression)
produce different canonical strings and different toString forms. -/
theorem c9_ipv6_canonical_mismatch :
    (EndpointAddress.make "ABCD:0000:0000:0000:0000:0000:0000:0001" none).str
        ≠ (EndpointAddress.make "ABCD::1" none).str
      ∧ expandIpv6 "ABCD::1" = "abcd:0000:0000:0000:0000:0000:0000:0001"
      ∧ expandIpv6 "ABCD:0000:0000:0000:0000:0000:0000:0001"
          = "ABCD:0000:0000:0000:0000:0000:0000:0001" := by
  decide

/-- C10 counterexample: the value zero encodes to the single byte 0x00, not to
a zero-length value as claimed. -/
theorem c10_zero_encodes_one_byte :
    encodeNumericValue 0 = .uint [0] ∧ encodeNumericValue 0 ≠ .uint [] := by
  decide

/-- C10 amended: for every integer value up to 2^32 - 1 the numeric option
encoding is big-endian using at most 4 bytes, leading zero bytes are omitted
for positive values while zero itself encodes as the single byte 0x00, the
8-byte IEEE-754 double branch is taken exactly for values above 2^32 - 1, and
decoding the encoding returns the value. -/
theorem c10_numeric_encoding (v : ℕ) (h : v ≤ 0xFFFFFFFF) :
    ∃ bytes : List ℕ,
      encodeNumericValue v = .uint bytes
        ∧ bytes.length ≤ 4
        ∧ (1 ≤ v → bytes.headD 0 ≠ 0)
        ∧ (v = 0 → bytes = [0])
        ∧ decodeNumericValue bytes = v
        ∧ (∀ w : ℕ, encodeNumericValue w = .double8 ↔ w > 0xFFFFFFFF) := by
  have hdouble : ∀ w : ℕ, encodeNumericValue w = .double8 ↔ w > 0xFFFFFFFF := by
    intro w
    unfold encodeNumericValue
    by_cases hw : w > 0xFFFFFFFF
    · rw [if_pos hw]
      simp [hw]
    · rw [if_neg hw]
      simp only [hw, iff_false]
      intro hcontra
      split at hcontra
      · exact NumBytes.noConfusion hcontra
      · split at hcontra
        · exact NumBytes.noConfusion hcontra
        · split at hcontra
          · exact NumBytes.noConfusion hcontra
          · exact NumBytes.noConfusion hcontra
  unfold encodeNumericValue
  rw [if_neg (by omega)]
  by_cases h1 : v ≤ 0xFF
  · refine ⟨[v], by rw [if_pos h1], by simp, ?_, by simp, ?_, hdouble⟩
    · intro hv
      simp only [List.headD_cons]
      omega
    · simp [decodeNumericValue]
  · by_cases h2 : v ≤ 0xFFFF
    · refine ⟨[v / 256, v % 256], by rw [if_neg h1, if_pos h2], by simp, ?_, by omega, ?_, hdouble⟩
      · intro _
        simp only [List.headD_cons]
        omega
      · simp only [decodeNumericValue]
        omega
    · by_cases h3 : v ≤ 0xFFFFFF
      · refine ⟨[v / 65536 % 256, v / 256 % 256, v % 256],
          by rw [if_neg h1, if_neg h2, if_pos h3], by simp, ?_, by omega, ?_, hdouble⟩
        · intro _
          simp only [List.headD_cons]
          omega
        · simp only [decodeNumericValue]
          omega
      · refine ⟨[v / 16777216 % 256, v / 65536 % 256, v / 256 % 256, v % 256],
          by rw [if_neg h1, if_neg h2, if_neg h3], by simp, ?_, by omega, ?_, hdouble⟩
        · intro _
          simp only [List.headD_cons]
          omega
        · simp only [decodeNumericValue, List.length_nil]
          rw [if_pos (by simp)]
          omega

/-- Witness for the amended C10 at the concrete value 300. -/
theorem c10_numeric_encoding_witness :
    (300 : ℕ) ≤ 0xFFFFFFFF
      ∧ ∃ bytes : List ℕ,
          encodeNumericValue 300 = .uint bytes
            ∧ bytes.length ≤ 4
            ∧ (1 ≤ 300 → bytes.headD 0 ≠ 0)
            ∧ ((300 : ℕ) = 0 → bytes = [0])
            ∧ decodeNumericValue bytes = 300
            ∧ (∀ w : ℕ, encodeNumericValue w = .double8 ↔ w > 0xFFFFFFFF) :=
  ⟨by decide, c10_numeric_encoding 300 (by decide)⟩

/-
ClientTransaction timer machine (lib/ClientTransaction.js) together with the
client handler Client.prototype.onTransactionTimeout (lib/Client.js).
-/

/-- Timer state of a ClientTransaction: the current retransmission timeout,
the timeout counter and the maxRetransmit option. -/
structure TxTimerState where
  currentTimeout : ℚ
  timeoutCounter : ℕ
  maxRetransmit : ℕ
  deriving DecidableEq, Repr

/-- Translation of ClientTransaction.prototype.isLimitReached. -/
def isLimitReached (s : TxTimerState) : Bool :=
  decide (s.timeoutCounter ≥ s.maxRetransmit + 1)

/-- Observable events of the retransmission schedule: a retransmitted copy
after waiting the scheduled delay, the timeout emitted on the request, and the
transaction timeout emitted on the client. -/
inductive TxEvent where
  | sendCopy (delayBefore : ℚ)
  | requestTimeout
  | clientTransactionTimeout
  deriving DecidableEq, Repr

/-- Translation of ClientTransaction.prototype.onTimeout combined with the
Client.prototype.onTransactionTimeout handler it invokes: the timer fires
after the previously scheduled currentTimeout, which is doubled while the
counter is incremented; at the limit the request emits timeout and the client
emits transaction timeout and finishes the transaction and exchange, otherwise
the client retransmits the request and the timer is rescheduled. -/
def onTimeoutStep (s : TxTimerState) : TxTimerState × List TxEvent :=
  let s2 : TxTimerState :=
    { s with currentTimeout := s.currentTimeout * 2,
             timeoutCounter := s.timeoutCounter + 1 }
  if isLimitReached s2 then
    (s2, [.requestTimeout, .clientTransactionTimeout])
  else
    (s2, [.sendCopy s.currentTimeout])

/-- Event trace of the timer from a given state until the transaction is
finished as timed out (the fuel bounds the iteration; maxRetransmit + 1
timeouts always occur from a fresh state). -/
def txTrace (s : TxTimerState) : ℕ → List TxEvent
  | 0 => []
  | fuel + 1 =>
    let (s2, evs) := onTimeoutStep s
    if isLimitReached s2 then evs else evs ++ txTrace s2 fuel

/-- Translation of Client.prototype.genTransactionTimeout with the
Math.random draw r made explicit. -/
def genTransactionTimeout (ackTimeout ackRandomFactor r : ℚ) : ℚ :=
  r * (ackTimeout * ackRandomFactor - ackTimeout) + ackTimeout

theorem txTrace_closed (n : ℕ) :
    ∀ (t : ℚ) (c : ℕ),
      txTrace { currentTimeout := t, timeoutCounter := c, maxRetransmit := c + n } (n + 1)
        = ((List.range n).map (fun k => TxEvent.sendCopy (t * 2 ^ k)))
            ++ [.requestTimeout, .clientTransactionTimeout] := by
  induction n with
  | zero =>
    intro t c
    simp [txTrace, onTimeoutStep, isLimitReached]
  | succ n ih =>
    intro t c
    have hstep : onTimeoutStep ⟨t, c, c + (n + 1)⟩
        = (⟨t * 2, c + 1, c + (n + 1)⟩, [.sendCopy t]) := by
      unfold onTimeoutStep
      rw [if_neg (by simp [isLimitReached])]
    have hlim : isLimitReached ⟨t * 2, c + 1, c + (n + 1)⟩ = false := by
      simp [isLimitReached]
    show txTrace _ (n + 1 + 1) = _
    rw [txTrace, hstep]
    simp only [hlim, Bool.false_eq_true, if_false]
    have harg : c + (n + 1) = (c + 1) + n := by omega
    rw [show (⟨t * 2, c + 1, c + (n + 1)⟩ : TxTimerState)
      = ⟨t * 2, c + 1, (c + 1) + n⟩ from by rw [harg]]
    rw [ih (t * 2) (c + 1)]
    rw [List.range_succ_eq_map, List.map_cons, List.map_map]
    simp only [pow_zero, mul_one, List.cons_append, List.nil_append]
    have hfun : ((fun k => TxEvent.sendCopy (t * 2 ^ k)) ∘ Nat.succ)
        = fun k => TxEvent.sendCopy (t * 2 * 2 ^ k) := by
      funext k
      simp only [Function.comp_apply]
      congr 1
      rw [pow_succ]
      ring
    rw [hfun]

/-
ClientExchange (lib/ClientExchange.js) and the response dispatch of the
Client coordinator (lib/Client.js), modelled as pure state transformers that
also return the list of observable actions (deferred emits, sends, timer
scheduling).
-/

/-- Target of a deferred emit: the request message object the emit was bound
to, the ClientExchange object itself (the target of the bind in the source
handleBlock2Response, which reaches no listeners because a ClientExchange is
not an EventEmitter), or the client. -/
inductive EmitTarget where
  | request (req : Message)
  | exchangeObject
  | client
  deriving DecidableEq, Repr

/-- Observable actions of the dispatch path. -/
inductive Action where
  | emit (target : EmitTarget) (event : String) (arg : Option Message)
  | send (m : Message)
  | scheduleExchangeTimeout (ms : ℤ)
  | bindParentTimeout
  deriving DecidableEq, Repr

/-- Default block option value used for JS property accesses on objects the
source has already checked to be non-null. -/
def defaultBlockOpt : BlockOpt := BlockOpt.make (-1) 0 false 0

/-- State of a ClientExchange instance. -/
structure ExchangeState where
  request : Message
  blockSizeOpt : ℕ
  exchangeTimeoutOpt : ℤ
  transactionKey : Option String
  currentBlock1 : Option BlockOpt
  blockwiseResponsePossible : Bool
  currentBlock2 : Option BlockOpt
  blocks2 : Option (List Message)
  observer : Bool
  lastObserveValue : ℤ
  lastResponseTime : ℤ
  lastMaxAge : ℤ
  serverInitiative : Bool
  deriving DecidableEq, Repr

/-- Translation of the ClientExchange constructor, including
setUpCurrentBlock1: a virtual Block1 cursor with NUM -1 and M true is created
when the request payload exceeds the blockSize option and no Block1 option is
present. -/
def ClientExchange.init (request : Message) (blockSize : ℕ) (exchangeTimeout : ℤ) :
    ExchangeState :=
  let observer := request.code == 1 && request.hasOption 6
  { request := request, blockSizeOpt := blockSize, exchangeTimeoutOpt := exchangeTimeout,
    transactionKey := none,
    currentBlock1 :=
      if decide (request.getPayloadLength > blockSize) && !(request.hasOption 27) then
        some (BlockOpt.make 27 (-1) true (encodeBlockSize blockSize))
      else none,
    blockwiseResponsePossible := !(request.hasOption 23),
    currentBlock2 := none, blocks2 := none,
    observer := observer,
    lastObserveValue := -1, lastResponseTime := 0, lastMaxAge := -1,
    serverInitiative := observer }

/-- Translation of ClientExchange.prototype.isSubscribed. -/
def ClientExchange.isSubscribed (st : ExchangeState) : Bool :=
  st.lastObserveValue != -1

/-- Translation of ClientExchange.prototype.isBlockwiseRequest. -/
def ClientExchange.isBlockwiseRequest (st : ExchangeState) : Bool :=
  st.currentBlock1.isSome

/-- Translation of ClientExchange.prototype.isBlockwiseResponse. -/
def ClientExchange.isBlockwiseResponse (st : ExchangeState) : Bool :=
  st.currentBlock2.isSome

/-- Translation of ClientExchange.prototype.isLateObserveResponse, with the
constants MAX_OBSERVE_VALUE_DIFFERENCE = 2^23 and
LATE_OBSERVE_ADDITIONAL_TIMESTAMP = 128000. -/
def ClientExchange.isLateObserveResponse (st : ExchangeState) (response : Message) :
    Bool :=
  let v2 := response.getObserve
  if v2 == -1 then false
  else
    let v1 := st.lastObserveValue
    let t2 := response.timestamp
    let t1 := st.lastResponseTime
    let newer := (decide (v1 < v2) && decide (v2 - v1 < 8388608))
      || (decide (v1 > v2) && decide (v1 - v2 > 8388608))
      || decide (t2 > t1 + 128000)
    !newer

/-- Translation of ClientExchange.prototype.isValidBlock2.  The observe
argument is Option-valued because the call from handleNewBlock2Response omits
it; an omitted observe never equals a number (JS undefined). -/
def ClientExchange.isValidBlock2 (st : ExchangeState) (block2 : BlockOpt)
    (observe : Option ℤ) : Bool :=
  if block2.num == 0 then true
  else
    match st.currentBlock2 with
    | none => block2.num == 0
    | some cur =>
      decide (block2.num = cur.num + 1) && decide (block2.szx ≤ cur.szx)
        && (observe == some (((st.blocks2.getD []).headD {}).getObserve))

/-- Translation of ClientExchange.prototype.adjustBlockToSize.  The ceiling of
the integer quotient is written with the usual additive trick (all operands in
the source call sites are non-negative with positive sizes). -/
def adjustBlockToSize (block : BlockOpt) (newSize : ℕ) : BlockOpt :=
  { block with
    num := ((block.num + 1) * (block.size : ℤ) + ((newSize : ℤ) - 1)) / (newSize : ℤ) - 1,
    szx := encodeBlockSize newSize,
    size := newSize }

/-- Translation of ClientExchange.prototype.setCurrentBlock2: oversized blocks
are adjusted down to the blockSize option (mutating the stored option, so the
later NUM test sees the adjusted NUM), and a block numbered 0 resets the list
of accumulated blocks. -/
def ClientExchange.setCurrentBlock2 (st : ExchangeState) (block2 : BlockOpt) :
    ExchangeState :=
  let cur := if decide (block2.size > st.blockSizeOpt) then
      adjustBlockToSize block2 st.blockSizeOpt
    else block2
  { st with currentBlock2 := some cur,
            blocks2 := if cur.num == 0 then none else st.blocks2 }

/-- Translation of ClientExchange.prototype.setResponse. -/
def ClientExchange.setResponse (st : ExchangeState) (response : Message) :
    ExchangeState × List Action :=
  ({ st with blocks2 := none, currentBlock2 := none, currentBlock1 := none,
             lastObserveValue := response.getObserve,
             lastResponseTime := response.timestamp,
             lastMaxAge := response.getMaxAge },
   [.emit (.request st.request) "response" (some response)])

/-- Translation of ClientExchange.prototype.finalizeBlock2Response: the
synthetic response copies type, code, id, token, options and remote endpoint
of the last accepted block and carries the concatenation of the accepted
block payloads. -/
def ClientExchange.finalizeBlock2Response (st : ExchangeState) :
    ExchangeState × List Action :=
  let blocks := st.blocks2.getD []
  let fullPayload := (blocks.map Message.getPayload).flatten
  let lastBlock := blocks.getLast?.getD {}
  let response : Message :=
    { type := lastBlock.type, code := lastBlock.code, id := lastBlock.id,
      token := lastBlock.token, options := lastBlock.getAllOptions,
      payload := if fullPayload.isEmpty then none else some fullPayload,
      remoteEndpoint := lastBlock.remoteEndpoint }
  ClientExchange.setResponse st response

/-- Translation of ClientExchange.prototype.handleBlock2Response.  The source
schedules setImmediate(this.request.emit.bind(this, ...)) for the block
received event: the emit function is bound to the exchange object instead of
the request, which the emit target records. -/
def ClientExchange.handleBlock2Response (st : ExchangeState) (blockResponse : Message)
    (block2 : BlockOpt) (serverInitiative : Option Bool) : ExchangeState × List Action :=
  let st := match serverInitiative with
    | some b => { st with serverInitiative := b }
    | none => st
  let st := ClientExchange.setCurrentBlock2 st block2
  let st := { st with blocks2 := some ((st.blocks2.getD []) ++ [blockResponse]) }
  let acts := [Action.emit .exchangeObject "block received" (some blockResponse)]
  if block2.m then
    ({ st with lastMaxAge := -1 }, acts)
  else
    let (st2, acts2) := ClientExchange.finalizeBlock2Response st
    (st2, acts ++ acts2)

/-- Translation of ClientExchange.prototype.createNextBlock2Request. -/
def ClientExchange.createNextBlock2Request (st : ExchangeState) (messageId : ℕ) :
    Message :=
  let cur := st.currentBlock2.getD defaultBlockOpt
  let base : Message :=
    { type := 0, code := 1, id := messageId, token := st.request.token,
      options := st.request.getAllOptions, remoteEndpoint := st.request.remoteEndpoint }
  base.setOption ⟨23, blockOptionEncode (cur.num + 1).toNat false cur.szx⟩

/-- Translation of ClientExchange.prototype.createNextBlock1Request, which
advances the Block1 cursor in place and recomputes its more flag. -/
def ClientExchange.createNextBlock1Request (st : ExchangeState) (messageId : ℕ) :
    ExchangeState × Message :=
  let cur0 := st.currentBlock1.getD defaultBlockOpt
  let cur1 := { cur0 with num := cur0.num + 1 }
  let fullPayload := st.request.getPayload
  let blockStart := (cur1.num * (cur1.size : ℤ)).toNat
  let blockPayload := (fullPayload.drop blockStart).take cur1.size
  let blockCount := (fullPayload.length + cur1.size - 1) / cur1.size
  let cur2 := { cur1 with m := decide (¬ ((blockCount : ℤ) = cur1.num + 1)) }
  let base : Message :=
    { type := 0, code := st.request.code, id := messageId, token := st.request.token,
      options := st.request.getAllOptions,
      payload := if blockPayload.isEmpty then none else some blockPayload,
      remoteEndpoint := st.request.remoteEndpoint }
  ({ st with currentBlock1 := some cur2 },
   base.setOption ⟨27, blockOptionEncode cur2.num.toNat cur2.m cur2.szx⟩)

/-- Translation of ClientExchange.prototype.hasMoreBlock1. -/
def ClientExchange.hasMoreBlock1 (st : ExchangeState) : Bool :=
  match st.currentBlock1 with
  | none => false
  | some cur =>
    let payloadSize := st.request.getPayloadLength
    let lastBlockNum : ℤ := (((payloadSize + cur.size - 1) / cur.size : ℕ) : ℤ) - 1
    decide (cur.num < lastBlockNum)

/-- Translation of ClientExchange.prototype.isValidBlock1. -/
def ClientExchange.isValidBlock1 (st : ExchangeState) (block1 : BlockOpt)
    (block2 : Option BlockOpt) : Bool :=
  match st.currentBlock1 with
  | none => false
  | some cur =>
    if block1.num != cur.num then false
    else if decide (block1.szx > cur.szx) then false
    else
      match block2 with
      | none => true
      | some b2 =>
        if block1.m then false
        else if b2.num != 0 then false
        else true

/-- Translation of ClientExchange.prototype.handleBlock1Response. -/
def ClientExchange.handleBlock1Response (st : ExchangeState) (response : Message)
    (block1 : BlockOpt) (hasBlock2 : Bool) : ExchangeState × List Action :=
  let st :=
    if decide (block1.size < (st.currentBlock1.getD defaultBlockOpt).size) then
      { st with
        currentBlock1 :=
          some (adjustBlockToSize (st.currentBlock1.getD defaultBlockOpt) block1.size) }
    else st
  let acts := [Action.emit (.request st.request) "block sent" (some response)]
  if !(ClientExchange.hasMoreBlock1 st) && !hasBlock2 then
    let (st2, acts2) := ClientExchange.setResponse st response
    (st2, acts ++ acts2)
  else if !block1.m && !hasBlock2 then
    (st, acts ++ [Action.emit (.request st.request) "response" (some response)])
  else (st, acts)

/-- Translation of ClientExchange.prototype.cancel. -/
def ClientExchange.cancel (st : ExchangeState) : ExchangeState × List Action :=
  ({ st with observer := false, lastObserveValue := -1, lastResponseTime := 0,
             lastMaxAge := -1 },
   [Action.emit (.request st.request) "cancelled" none])

/-- Translation of ClientExchange.prototype.scheduleTimeout as the action of
re-arming the exchange timer. -/
def ClientExchange.scheduleTimeoutAction (st : ExchangeState) : Action :=
  .scheduleExchangeTimeout
    (if st.lastMaxAge == -1 then st.exchangeTimeoutOpt else st.lastMaxAge * 1000)

/-- Record of a live ClientTransaction as far as the dispatch path observes
it: its keys, its request and the optional parent request mirrored on
timeouts and replies. -/
structure TxRec where
  transactionKey : String
  exchangeKey : String
  request : Message
  parentRequest : Option Message
  deriving DecidableEq, Repr

/-- State of the Client coordinator: JS objects used as string-keyed maps are
modelled as association lists, and object references to exchanges are
represented by their exchange keys. -/
structure ClientState where
  messageId : ℕ
  blockSize : ℕ
  transactions : List (String × TxRec)
  exchanges : List (String × ExchangeState)
  observers : List (String × List (String × String))
  replies : List (String × Message)
  tokens : TokenManagerState
  deriving DecidableEq, Repr

/-- Lookup in a string-keyed object. -/
def alookup {α : Type} (l : List (String × α)) (k : String) : Option α :=
  (l.find? (fun p => p.1 == k)).map Prod.snd

/-- Property assignment in a string-keyed object. -/
def aset {α : Type} (l : List (String × α)) (k : String) (v : α) : List (String × α) :=
  if (l.find? (fun p => p.1 == k)).isSome then
    l.map (fun p => if p.1 == k then (k, v) else p)
  else l ++ [(k, v)]

/-- Property deletion in a string-keyed object. -/
def adel {α : Type} (l : List (String × α)) (k : String) : List (String × α) :=
  l.filter (fun p => p.1 != k)

/-- Translation of Client.prototype.getNextMessageId (wrapping 1 to 0xFFFF). -/
def Client.getNextMessageId (cs : ClientState) : ClientState × ℕ :=
  let mid := if cs.messageId = 0xFFFF then 0 else cs.messageId
  ({ cs with messageId := mid + 1 }, mid + 1)

/-- Translation of Client.prototype.sendMessage on the successful socket path:
the datagram goes out and the client emits message sent.  Socket selection,
the missing-socket error and the synchronous send failure are not modelled. -/
def Client.sendMessage (cs : ClientState) (m : Message) : ClientState × List Action :=
  (cs, [.send m, .emit .client "message sent" (some m)])

/-- Translation of Client.prototype.sendRstReply: the empty RST reply is
cached in the replies table under the transaction key, then sent. -/
def Client.sendRstReply (cs : ClientState) (message : Message) :
    ClientState × List Action :=
  let rstReply := message.createReply 3 0
  Client.sendMessage
    { cs with replies := aset cs.replies message.getTransactionKey rstReply } rstReply

/-- Translation of Client.prototype.sendAckReply. -/
def Client.sendAckReply (cs : ClientState) (message : Message) :
    ClientState × List Action :=
  let ackReply := message.createReply 2 0
  Client.sendMessage
    { cs with replies := aset cs.replies message.getTransactionKey ackReply } ackReply

/-- Translation of Client.prototype.finishTransaction: remove the transaction
and deliver the deferred acknowledged or reset event on its request (and on
the parent request when set). -/
def Client.finishTransaction (cs : ClientState) (transactionKey : String)
    (accept : Option Bool) (response : Option Message) : ClientState × List Action :=
  match alookup cs.transactions transactionKey with
  | none => (cs, [])
  | some tx =>
    let cs := { cs with transactions := adel cs.transactions transactionKey }
    let event : Option String :=
      match accept with
      | some true => some "acknowledged"
      | some false => some "reset"
      | none => none
    match event with
    | none => (cs, [])
    | some ev =>
      (cs, [Action.emit (.request tx.request) ev response]
        ++ (match tx.parentRequest with
            | some p => [Action.emit (.request p) ev response]
            | none => []))

/-- Translation of Client.prototype.finishExchange: cancel an observer
exchange (unless cancel is false), remove it from the exchange map and
release its token.  The release clock is a constant, which only matters for
the empty-token timing that no theorem below depends on. -/
def Client.finishExchange (cs : ClientState) (exchangeKey : String) (cancel : Bool) :
    ClientState × List Action :=
  match alookup cs.exchanges exchangeKey with
  | none => (cs, [])
  | some ex =>
    let acts := if ex.observer && cancel then (ClientExchange.cancel ex).2 else []
    ({ cs with exchanges := adel cs.exchanges exchangeKey,
               tokens := TokenManager.release cs.tokens 1000000
                 (convertToHexString ex.request.token) },
     acts)

/-- Translation of Client.prototype.removeObserver. -/
def Client.removeObserver (cs : ClientState) (remoteEndpoint uriPath : String)
    (finish cancel : Bool) : ClientState × List Action :=
  match alookup cs.observers remoteEndpoint with
  | none => (cs, [])
  | some endpointObservers =>
    match alookup endpointObservers uriPath with
    | none => (cs, [])
    | some exchangeKey =>
      let (cs, acts) :=
        if finish then Client.finishExchange cs exchangeKey cancel else (cs, [])
      let remaining := adel endpointObservers uriPath
      let newObservers :=
        if remaining.isEmpty then adel cs.observers remoteEndpoint
        else aset cs.observers remoteEndpoint remaining
      ({ cs with observers := newObservers }, acts)

/-- Translation of Client.prototype.updateObserver: register the exchange
under (endpoint, Uri-Path), finishing a different previously registered
exchange for the same key. -/
def Client.updateObserver (cs : ClientState) (exchangeKey : String) (request : Message) :
    ClientState × List Action :=
  let remoteEndpoint := request.remoteEndpoint
  let endpointObservers := (alookup cs.observers remoteEndpoint).getD []
  let uriPath := request.getUriPath
  let newEndpointObservers := aset endpointObservers uriPath exchangeKey
  match alookup endpointObservers uriPath with
  | none =>
    ({ cs with observers := aset cs.observers remoteEndpoint newEndpointObservers }, [])
  | some oldExchangeKey =>
    if oldExchangeKey = exchangeKey then (cs, [])
    else
      let (cs, acts) := Client.finishExchange cs oldExchangeKey true
      ({ cs with observers := aset cs.observers remoteEndpoint newEndpointObservers }, acts)

/-- Translation of Client.prototype.handleObserverSuccess. -/
def Client.handleObserverSuccess (cs : ClientState) (exchangeKey : String)
    (ex : ExchangeState) (request response : Message) : ClientState × List Action :=
  if ClientExchange.isSubscribed ex then (cs, [])
  else if ex.observer && (response.getObserve != -1) then
    Client.updateObserver cs exchangeKey request
  else
    Client.removeObserver cs request.remoteEndpoint request.getUriPath true true

/-- Translation of Client.prototype.handleObserverError: the subscription is
removed without finishing and the exchange is cancelled in place. -/
def Client.handleObserverError (cs : ClientState) (exchangeKey : String)
    (ex : ExchangeState) (request : Message) : ClientState × List Action :=
  if ex.observer then
    let (cs, acts) :=
      if ClientExchange.isSubscribed ex then
        Client.removeObserver cs request.remoteEndpoint request.getUriPath false true
      else (cs, [])
    let (ex2, acts2) := ClientExchange.cancel ex
    ({ cs with exchanges := aset cs.exchanges exchangeKey ex2 }, acts ++ acts2)
  else (cs, [])

/-- Translation of Client.prototype.handleObserver (codes 69 and 67 are
2.05 Content and 2.03 Valid). -/
def Client.handleObserver (cs : ClientState) (exchangeKey : String)
    (ex : ExchangeState) (response : Message) : ClientState × List Action :=
  let request := ex.request
  if request.code != 1 then (cs, [])
  else if response.code == 69 || response.code == 67 then
    Client.handleObserverSuccess cs exchangeKey ex request response
  else
    Client.handleObserverError cs exchangeKey ex request

/-- Translation of Client.prototype.handleTransaction: accept the transaction
under the response transaction key, or the one recorded on the exchange. -/
def Client.handleTransaction (cs : ClientState) (ex : ExchangeState)
    (response : Message) (transactionKey : String) : ClientState × List Action :=
  if (alookup cs.transactions transactionKey).isSome then
    Client.finishTransaction cs transactionKey (some true) (some response)
  else
    match ex.transactionKey with
    | some tk =>
      if (alookup cs.transactions tk).isSome then
        Client.finishTransaction cs tk (some true) (some response)
      else (cs, [])
    | none => (cs, [])

/-- Translation of Client.prototype.setUpTransaction as far as the dispatch
path observes it: record the transaction and point the exchange at it (timer
scheduling and timeout options are outside this model). -/
def Client.setUpTransaction (cs : ClientState) (exchangeKey : String)
    (request : Message) (parentRequest : Option Message) : ClientState :=
  let transactionKey := request.getTransactionKey
  let txRec : TxRec := ⟨transactionKey, exchangeKey, request, parentRequest⟩
  let cs := { cs with transactions := aset cs.transactions transactionKey txRec }
  match alookup cs.exchanges exchangeKey with
  | some ex =>
    let ex2 := { ex with transactionKey := some transactionKey }
    { cs with exchanges := aset cs.exchanges exchangeKey ex2 }
  | none => cs

/-- Translation of Client.prototype.requestNextBlock. -/
def Client.requestNextBlock (cs : ClientState) (exchangeKey : String) :
    ClientState × List Action :=
  match alookup cs.exchanges exchangeKey with
  | none => (cs, [])
  | some ex =>
    let (cs, mid) := Client.getNextMessageId cs
    let nextBlock2Request := ClientExchange.createNextBlock2Request ex mid
    let cs := Client.setUpTransaction cs exchangeKey nextBlock2Request none
    let (cs, acts) := Client.sendMessage cs nextBlock2Request
    (cs, Action.bindParentTimeout :: acts)

/-- Translation of Client.prototype.sendNextBlock. -/
def Client.sendNextBlock (cs : ClientState) (exchangeKey : String) (first : Bool) :
    ClientState × List Action :=
  match alookup cs.exchanges exchangeKey with
  | none => (cs, [])
  | some ex =>
    let (cs, mid) := Client.getNextMessageId cs
    let (ex2, nextBlock1Request) := ClientExchange.createNextBlock1Request ex mid
    let cs := { cs with exchanges := aset cs.exchanges exchangeKey ex2 }
    let cs := Client.setUpTransaction cs exchangeKey nextBlock1Request
      (if first then some ex.request else none)
    let (cs, acts) := Client.sendMessage cs nextBlock1Request
    (cs, Action.bindParentTimeout :: acts)

/-- Translation of Client.prototype.handleInvalidBlock2Response: reply with
RST for a confirmable message without Observe, with an empty ACK for a
confirmable message carrying Observe, and stay silent otherwise. -/
def Client.handleInvalidBlock2Response (cs : ClientState) (response : Message)
    (observe : ℤ) : ClientState × List Action :=
  if response.isConfirmable then
    if observe == -1 then Client.sendRstReply cs response
    else Client.sendAckReply cs response
  else (cs, [])

/-- Translation of Client.prototype.handleNewValidBlock2Response. -/
def Client.handleNewValidBlock2Response (cs : ClientState) (exchangeKey : String)
    (response : Message) (block2 : BlockOpt) (serverInitiative : Bool) :
    ClientState × List Action :=
  match alookup cs.exchanges exchangeKey with
  | none => (cs, [])
  | some ex =>
    let (cs, acts0) :=
      if response.isConfirmable then Client.sendAckReply cs response else (cs, [])
    let (ex2, acts1) :=
      ClientExchange.handleBlock2Response ex response block2 (some serverInitiative)
    let cs := { cs with exchanges := aset cs.exchanges exchangeKey ex2 }
    if ex2.serverInitiative then
      (cs, acts0 ++ acts1 ++ [ClientExchange.scheduleTimeoutAction ex2])
    else if block2.m then
      let (cs, acts2) := Client.requestNextBlock cs exchangeKey
      (cs, acts0 ++ acts1 ++ acts2)
    else
      let (cs, acts2) := Client.finishExchange cs exchangeKey true
      (cs, acts0 ++ acts1 ++ acts2)

/-- Translation of Client.prototype.handleExistingBlock2Response.  The source
passes the observe number as the serverInitiative argument of the exchange
handler, whose typeof boolean check ignores it. -/
def Client.handleExistingBlock2Response (cs : ClientState) (exchangeKey : String)
    (response : Message) (block2 : BlockOpt) : ClientState × List Action :=
  match alookup cs.exchanges exchangeKey with
  | none => (cs, [])
  | some ex =>
    let observe := response.getObserve
    if !(ClientExchange.isValidBlock2 ex block2 (some observe)) then
      Client.handleInvalidBlock2Response cs response observe
    else
      let (cs, acts0) :=
        if response.isConfirmable then Client.sendAckReply cs response else (cs, [])
      let (ex2, acts1) := ClientExchange.handleBlock2Response ex response block2 none
      let cs := { cs with exchanges := aset cs.exchanges exchangeKey ex2 }
      if block2.m then
        if ex2.serverInitiative then
          (cs, acts0 ++ acts1 ++ [ClientExchange.scheduleTimeoutAction ex2])
        else
          let (cs, acts2) := Client.requestNextBlock cs exchangeKey
          (cs, acts0 ++ acts1 ++ acts2)
      else
        if ClientExchange.isSubscribed ex2 then
          (cs, acts0 ++ acts1 ++ [ClientExchange.scheduleTimeoutAction ex2])
        else
          let (cs, acts2) := Client.finishExchange cs exchangeKey true
          (cs, acts0 ++ acts1 ++ acts2)

/-- Translation of Client.prototype.handleNewBlock2Response (the observe
argument of isValidBlock2 is omitted at this call site). -/
def Client.handleNewBlock2Response (cs : ClientState) (exchangeKey : String)
    (response : Message) (block2 : BlockOpt) (serverInitiative : Bool) :
    ClientState × List Action :=
  match alookup cs.exchanges exchangeKey with
  | none => (cs, [])
  | some ex =>
    if ClientExchange.isValidBlock2 ex block2 none then
      Client.handleNewValidBlock2Response cs exchangeKey response block2 serverInitiative
    else
      Client.handleInvalidBlock2Response cs response response.getObserve

/-- Translation of Client.prototype.handleBlock2Response. -/
def Client.handleBlock2Response (cs : ClientState) (exchangeKey : String)
    (response : Message) (block2 : BlockOpt) (serverInitiative : Bool) :
    ClientState × List Action :=
  match alookup cs.exchanges exchangeKey with
  | none => (cs, [])
  | some ex =>
    if decide (block2.num > 0) && ClientExchange.isBlockwiseResponse ex then
      Client.handleExistingBlock2Response cs exchangeKey response block2
    else
      Client.handleNewBlock2Response cs exchangeKey response block2 serverInitiative

/-- Translation of Client.prototype.handleBlock1Response. -/
def Client.handleBlock1Response (cs : ClientState) (exchangeKey : String)
    (response : Message) (block1 : BlockOpt) : ClientState × List Action :=
  match alookup cs.exchanges exchangeKey with
  | none => (cs, [])
  | some ex =>
    let block2 := response.getBlockOption 23
    if !(ClientExchange.isValidBlock1 ex block1 block2) then
      if response.isConfirmable then Client.sendRstReply cs response else (cs, [])
    else
      let (ex2, acts1) := ClientExchange.handleBlock1Response ex response block1 block2.isSome
      let cs := { cs with exchanges := aset cs.exchanges exchangeKey ex2 }
      if ClientExchange.hasMoreBlock1 ex2 then
        let (cs, acts2) := Client.sendNextBlock cs exchangeKey false
        (cs, acts1 ++ acts2)
      else
        match block2 with
        | some b2 =>
          let (cs, acts2) := Client.handleBlock2Response cs exchangeKey response b2 true
          (cs, acts1 ++ acts2)
        | none =>
          let (cs, acts2) := Client.finishExchange cs exchangeKey true
          (cs, acts1 ++ acts2)

/-- Translation of Client.prototype.handleSimpleExchangeResponse. -/
def Client.handleSimpleExchangeResponse (cs : ClientState) (exchangeKey : String)
    (response : Message) : ClientState × List Action :=
  match alookup cs.exchanges exchangeKey with
  | none => (cs, [])
  | some ex =>
    let (cs, acts0) :=
      if response.isConfirmable then Client.sendAckReply cs response else (cs, [])
    let (ex2, acts1) := ClientExchange.setResponse ex response
    let cs := { cs with exchanges := aset cs.exchanges exchangeKey ex2 }
    if ClientExchange.isSubscribed ex2 then
      (cs, acts0 ++ acts1 ++ [ClientExchange.scheduleTimeoutAction ex2])
    else
      let (cs, acts2) := Client.finishExchange cs exchangeKey true
      (cs, acts0 ++ acts1 ++ acts2)

/-- Translation of Client.prototype.handleExchangeResponse.  After the
observer bookkeeping the source keeps using the same exchange object; the
model re-reads the exchange from the map, falling back to the previous value
when the bookkeeping removed it. -/
def Client.handleExchangeResponse (cs : ClientState) (exchangeKey : String)
    (response : Message) (transactionKey : String) : ClientState × List Action :=
  match alookup cs.exchanges exchangeKey with
  | none => (cs, [])
  | some ex =>
    let (cs, acts0) := Client.handleTransaction cs ex response transactionKey
    if ClientExchange.isLateObserveResponse ex response then
      if response.isConfirmable then
        let (cs, acts1) := Client.sendAckReply cs response
        (cs, acts0 ++ acts1)
      else (cs, acts0)
    else
      let (cs, acts1) := Client.handleObserver cs exchangeKey ex response
      let exNow := (alookup cs.exchanges exchangeKey).getD ex
      match response.getBlockOption 27 with
      | some block1 =>
        let (cs, acts2) := Client.handleBlock1Response cs exchangeKey response block1
        (cs, acts0 ++ acts1 ++ acts2)
      | none =>
        match response.getBlockOption 23 with
        | some block2 =>
          if exNow.blockwiseResponsePossible then
            let serverInitiative :=
              exNow.observer || ClientExchange.isBlockwiseRequest exNow
            let (cs, acts2) :=
              Client.handleBlock2Response cs exchangeKey response block2 serverInitiative
            (cs, acts0 ++ acts1 ++ acts2)
          else
            let (cs, acts2) := Client.handleSimpleExchangeResponse cs exchangeKey response
            (cs, acts0 ++ acts1 ++ acts2)
        | none =>
          let (cs, acts2) := Client.handleSimpleExchangeResponse cs exchangeKey response
          (cs, acts0 ++ acts1 ++ acts2)

/-- Actions of handleTransaction are acknowledged emits only. -/
theorem handleTransaction_acts (cs : ClientState) (ex : ExchangeState)
    (response : Message) (transactionKey : String) :
    ∀ a ∈ (Client.handleTransaction cs ex response transactionKey).2,
      ∃ req, a = Action.emit (.request req) "acknowledged" (some response) := by
  unfold Client.handleTransaction Client.finishTransaction
  intro a ha
  split at ha
  · split at ha
    · simp at ha
    · simp only [List.mem_append, List.mem_singleton] at ha
      rcases ha with ha | ha
      · exact ⟨_, ha⟩
      · split at ha
        · simp only [List.mem_singleton] at ha
          exact ⟨_, ha⟩
        · simp at ha
  · split at ha
    · split at ha
      · split at ha
        · simp at ha
        · simp only [List.mem_append, List.mem_singleton] at ha
          rcases ha with ha | ha
          · exact ⟨_, ha⟩
          · split at ha
            · simp only [List.mem_singleton] at ha
              exact ⟨_, ha⟩
            · simp at ha
      · simp at ha
    · simp at ha

/-
Fixtures for claims C4, C5 and C7.
-/

/-- Request of the C4 exchange. -/
def c4Request : Message := { type := 0, code := 1, id := 1, token := [1] }

/-- Fresh exchange for the C4 scenario. -/
def c4Exchange : ExchangeState := ClientExchange.init c4Request 512 96000

/-- First Block2 block (NUM 0, M true, SZX 2) accepted by the C4 exchange. -/
def c4BlockResponse : Message :=
  { type := 2, code := 69, id := 1, token := [1],
    options := [⟨23, blockOptionEncode 0 true 2⟩], payload := some [10, 20] }

/-- Decoded Block2 option of the C4 block. -/
def c4Block : BlockOpt := BlockOpt.make 23 0 true 2

/-- Request of the C5 exchange. -/
def c5Request : Message := { type := 0, code := 1, id := 1, token := [2] }

/-- Fresh exchange for the C5 scenario, with blockSize 16. -/
def c5Exchange : ExchangeState := ClientExchange.init c5Request 16 96000

/-- Confirmable first block of size 1024 (SZX 6), above the blockSize 16,
without an Observe option. -/
def c5Response : Message :=
  { type := 0, code := 69, id := 7, token := [2],
    options := [⟨23, blockOptionEncode 0 true 6⟩], payload := some [1, 2, 3] }

/-- Decoded Block2 option of the C5 block. -/
def c5Block : BlockOpt := BlockOpt.make 23 0 true 6

/-- Client state holding the C5 exchange under the key k. -/
def c5ClientState : ClientState :=
  { messageId := 1, blockSize := 16, transactions := [], exchanges := [("k", c5Exchange)],
    observers := [], replies := [], tokens := TokenManager.init 8 }

/-- Observer request of the C7 exchange. -/
def c7Request : Message := { type := 0, code := 1, id := 1, token := [3], options := [⟨6, []⟩] }

/-- Subscribed C7 exchange: last Observe value 5 received at time 1000. -/
def c7Exchange : ExchangeState :=
  { ClientExchange.init c7Request 512 96000 with lastObserveValue := 5, lastResponseTime := 1000 }

/-- Confirmable notification with the older Observe value 4 at time 1500. -/
def c7Response : Message :=
  { type := 0, code := 69, id := 9, token := [3], options := [⟨6, [4]⟩],
    payload := some [55], timestamp := 1500 }

/-- Client state holding the C7 exchange under the key j. -/
def c7ClientState : ClientState :=
  { messageId := 1, blockSize := 512, transactions := [], exchanges := [("j", c7Exchange)],
    observers := [], replies := [], tokens := TokenManager.init 8 }

/-- First accepted block of the C5 witness transfer. -/
def c5WitnessFirst : Message :=
  { type := 2, code := 69, id := 6, token := [2],
    options := [⟨23, blockOptionEncode 0 true 0⟩], payload := some [9] }

/-- C5 witness exchange: a transfer whose current block is NUM 0 (SZX 0) with
one accepted block. -/
def c5WitnessExchange : ExchangeState :=
  { ClientExchange.init c5Request 16 96000 with
    currentBlock2 := some (BlockOpt.make 23 0 true 0),
    blocks2 := some [c5WitnessFirst] }

/-- C5 witness block message: NUM 2 arrives while NUM 1 is expected. -/
def c5WitnessResponse : Message :=
  { type := 0, code := 69, id := 8, token := [2],
    options := [⟨23, blockOptionEncode 2 true 0⟩], payload := some [8, 8] }

/-- Decoded Block2 option of the C5 witness block. -/
def c5WitnessBlock : BlockOpt := BlockOpt.make 23 2 true 0

/-- Client state holding the C5 witness exchange under the key k. -/
def c5WitnessClientState : ClientState :=
  { messageId := 1, blockSize := 16, transactions := [],
    exchanges := [("k", c5WitnessExchange)], observers := [], replies := [],
    tokens := TokenManager.init 8 }

/-- The C5 witness block does not continue the witness transfer: its NUM is 2
while the current NUM is 0. -/
theorem c5WitnessNotValid :
    ¬ (c5WitnessBlock.num = 0
      ∨ ∃ cur, c5WitnessExchange.currentBlock2 = some cur
          ∧ c5WitnessBlock.num = cur.num + 1 ∧ c5WitnessBlock.szx ≤ cur.szx
          ∧ c5WitnessResponse.getObserve
              = ((c5WitnessExchange.blocks2.getD []).headD {}).getObserve) := by
  intro h
  rcases h with h0 | ⟨cur, hcur, hrest⟩
  · exact absurd h0 (by decide)
  · have hc : c5WitnessExchange.currentBlock2 = some (BlockOpt.make 23 0 true 0) := rfl
    rw [hc] at hcur
    injection hcur with hcur
    subst hcur
    revert hrest
    decide

/-
Claim theorems, client dispatch group.
-/

/-- C4: the block received event of an accepted Block2 block is emitted with
the emitter bound to the ClientExchange object instead of the request
(the source schedules this.request.emit.bind(this, ...) while every sibling
call binds this.request), so the request listeners never receive it; the
block payload is still appended to the accumulated blocks. -/
theorem c4_block_received_wrong_target :
    (ClientExchange.handleBlock2Response c4Exchange c4BlockResponse c4Block (some true)).2
        = [Action.emit .exchangeObject "block received" (some c4BlockResponse)]
      ∧ (ClientExchange.handleBlock2Response c4Exchange c4BlockResponse c4Block
          (some true)).1.blocks2 = some [c4BlockResponse] := by
  decide

/-- C5 counterexample: a confirmable first Block2 block whose size 1024
exceeds the client blockSize 16 and carries no Observe option is accepted,
not ignored: its payload is appended to the accumulated blocks and the client
answers with an empty ACK rather than the RST the claim requires. -/
theorem c5_oversized_block_accepted :
    ((alookup (Client.handleBlock2Response c5ClientState "k" c5Response c5Block
        false).1.exchanges "k").map (fun e => e.blocks2)) = some (some [c5Response])
      ∧ (Client.handleBlock2Response c5ClientState "k" c5Response c5Block false).2.head?
        = some (Action.send (c5Response.createReply 2 0))
      ∧ decide (c5Block.size > c5ClientState.blockSize) = true
      ∧ c5Response.isConfirmable = true
      ∧ c5Response.getObserve = -1 := by
  decide

/-- C5 (amended): an incoming Block2 block is invalid exactly when its NUM is
positive and it does not continue the current transfer (no current block, NUM
different from the current NUM plus one, SZX above the current SZX, or an
Observe value differing from the first accepted block); such a block is
ignored (the exchange map is untouched, no request or exchange events are
emitted) and the client answers with an empty ACK when the message is
confirmable with an Observe option, with an RST when it is confirmable
without Observe, and stays silent otherwise.  Blocks with NUM 0 restart the
reassembly and oversized blocks are accepted with the cursor adjusted down. -/
theorem c5_invalid_block2_handling (cs : ClientState) (exchangeKey : String)
    (response : Message) (block2 : BlockOpt) (serverInitiative : Bool)
    (ex : ExchangeState)
    (hex : alookup cs.exchanges exchangeKey = some ex)
    (hnum : 0 ≤ block2.num)
    (hinvalid : ¬ (block2.num = 0
      ∨ ∃ cur, ex.currentBlock2 = some cur ∧ block2.num = cur.num + 1
          ∧ block2.szx ≤ cur.szx
          ∧ response.getObserve = ((ex.blocks2.getD []).headD {}).getObserve)) :
    (Client.handleBlock2Response cs exchangeKey response block2 serverInitiative).1.exchanges
        = cs.exchanges
      ∧ (Client.handleBlock2Response cs exchangeKey response block2 serverInitiative).2
        = (if response.isConfirmable then
             (if response.getObserve == -1 then
                [Action.send (response.createReply 3 0),
                 Action.emit .client "message sent" (some (response.createReply 3 0))]
              else
                [Action.send (response.createReply 2 0),
                 Action.emit .client "message sent" (some (response.createReply 2 0))])
           else [])
      ∧ ∀ a ∈ (Client.handleBlock2Response cs exchangeKey response block2 serverInitiative).2,
          (∀ req ev arg, a ≠ Action.emit (.request req) ev arg)
            ∧ ∀ ev arg, a ≠ Action.emit .exchangeObject ev arg := by
  push_neg at hinvalid
  obtain ⟨hne0, hcur⟩ := hinvalid
  have hinvalidBool : ∀ obs : Option ℤ,
      (obs = some response.getObserve ∨ obs = none) →
      ClientExchange.isValidBlock2 ex block2 obs = false := by
    intro obs hobs
    unfold ClientExchange.isValidBlock2
    rw [if_neg (by simpa using hne0)]
    cases hc2 : ex.currentBlock2 with
    | none =>
      simp only [beq_eq_false_iff_ne, ne_eq]
      exact hne0
    | some cur =>
      have hstep := hcur cur hc2
      rw [Bool.eq_false_iff]
      intro hcontra
      rcases hobs with rfl | rfl
      · simp only [Bool.and_eq_true, decide_eq_true_eq, beq_iff_eq,
          Option.some.injEq] at hcontra
        exact hstep hcontra.1.1 hcontra.1.2 hcontra.2
      · simp at hcontra
  have hmain : Client.handleBlock2Response cs exchangeKey response block2 serverInitiative
      = Client.handleInvalidBlock2Response cs response response.getObserve := by
    have hpos : block2.num > 0 := lt_of_le_of_ne hnum (fun hc => hne0 hc.symm)
    by_cases hbw : ClientExchange.isBlockwiseResponse ex
    · have hcond : (decide (block2.num > 0) && ClientExchange.isBlockwiseResponse ex)
          = true := by simp [hbw, hpos]
      simp [Client.handleBlock2Response, hex, hcond, Client.handleExistingBlock2Response,
        hinvalidBool (some response.getObserve) (Or.inl rfl)]
    · have hcond : (decide (block2.num > 0) && ClientExchange.isBlockwiseResponse ex)
          = false := by simp [hbw]
      simp [Client.handleBlock2Response, hex, hcond, Client.handleNewBlock2Response,
        hinvalidBool none (Or.inr rfl)]
  rw [hmain]
  unfold Client.handleInvalidBlock2Response Client.sendRstReply Client.sendAckReply
    Client.sendMessage
  refine ⟨by split_ifs <;> rfl, by split_ifs <;> rfl, ?_⟩
  intro a ha
  split_ifs at ha
  · simp only [List.mem_cons, List.not_mem_nil, or_false] at ha
    rcases ha with rfl | rfl
      <;> exact ⟨by intro req ev arg h; simp at h, by intro ev arg h; simp at h⟩
  · simp only [List.mem_cons, List.not_mem_nil, or_false] at ha
    rcases ha with rfl | rfl
      <;> exact ⟨by intro req ev arg h; simp at h, by intro ev arg h; simp at h⟩
  · simp at ha

/-- Witness for the amended C5: a follow-up block with NUM 2 while the
current transfer expects NUM 1 is ignored and, being confirmable without
Observe, answered with an RST. -/
theorem c5_invalid_block2_handling_witness :
    (alookup c5WitnessClientState.exchanges "k" = some c5WitnessExchange
      ∧ 0 ≤ c5WitnessBlock.num
      ∧ ¬ (c5WitnessBlock.num = 0
        ∨ ∃ cur, c5WitnessExchange.currentBlock2 = some cur
            ∧ c5WitnessBlock.num = cur.num + 1 ∧ c5WitnessBlock.szx ≤ cur.szx
            ∧ c5WitnessResponse.getObserve
                = ((c5WitnessExchange.blocks2.getD []).headD {}).getObserve))
      ∧ ((Client.handleBlock2Response c5WitnessClientState "k" c5WitnessResponse
            c5WitnessBlock false).1.exchanges = c5WitnessClientState.exchanges
        ∧ (Client.handleBlock2Response c5WitnessClientState "k" c5WitnessResponse
            c5WitnessBlock false).2
          = (if c5WitnessResponse.isConfirmable then
               (if c5WitnessResponse.getObserve == -1 then
                  [Action.send (c5WitnessResponse.createReply 3 0),
                   Action.emit .client "message sent"
                     (some (c5WitnessResponse.createReply 3 0))]
                else
                  [Action.send (c5WitnessResponse.createReply 2 0),
                   Action.emit .client "message sent"
                     (some (c5WitnessResponse.createReply 2 0))])
             else [])
        ∧ ∀ a ∈ (Client.handleBlock2Response c5WitnessClientState "k" c5WitnessResponse
              c5WitnessBlock false).2,
            (∀ req ev arg, a ≠ Action.emit (.request req) ev arg)
              ∧ ∀ ev arg, a ≠ Action.emit .exchangeObject ev arg) :=
  ⟨⟨by decide, by decide, c5WitnessNotValid⟩,
   c5_invalid_block2_handling c5WitnessClientState "k" c5WitnessResponse c5WitnessBlock
     false c5WitnessExchange (by decide) (by decide) c5WitnessNotValid⟩

/-- C6: the initial retransmission timeout drawn with random fraction r lies
in [ackTimeout, ackTimeout * ackRandomFactor), and from a fresh timer state a
confirmable message is retransmitted exactly maxRetransmit times with the
delay before each retransmission double the previous one (delays t0 * 2 ^ k),
after which the request emits timeout and the client emits transaction
timeout with no further copies sent. -/
theorem c6_retransmission_schedule (maxRetransmit : ℕ) (ackTimeout ackRandomFactor r : ℚ)
    (h0 : 0 ≤ r) (h1 : r < 1) (hA : 0 < ackTimeout) (hF : 1 < ackRandomFactor) :
    (ackTimeout ≤ genTransactionTimeout ackTimeout ackRandomFactor r
      ∧ genTransactionTimeout ackTimeout ackRandomFactor r < ackTimeout * ackRandomFactor)
    ∧ ∀ t0 : ℚ,
        txTrace { currentTimeout := t0, timeoutCounter := 0, maxRetransmit := maxRetransmit }
            (maxRetransmit + 1)
          = ((List.range maxRetransmit).map (fun k => TxEvent.sendCopy (t0 * 2 ^ k)))
              ++ [.requestTimeout, .clientTransactionTimeout] := by
  refine ⟨⟨?_, ?_⟩, ?_⟩
  · have hd : 0 ≤ ackTimeout * ackRandomFactor - ackTimeout := by nlinarith
    have hr := mul_nonneg h0 hd
    unfold genTransactionTimeout
    linarith
  · have hd : 0 < ackTimeout * ackRandomFactor - ackTimeout := by nlinarith
    have h2 : r * (ackTimeout * ackRandomFactor - ackTimeout)
        < 1 * (ackTimeout * ackRandomFactor - ackTimeout) :=
      mul_lt_mul_of_pos_right h1 hd
    unfold genTransactionTimeout
    linarith
  · intro t0
    have h := txTrace_closed maxRetransmit t0 0
    simpa using h

/-- Witness for C6 at maxRetransmit 4, ackTimeout 2000, ackRandomFactor 3/2,
r 1/2 and initial timeout 2000. -/
theorem c6_retransmission_schedule_witness :
    ((0 : ℚ) ≤ 1/2 ∧ (1/2 : ℚ) < 1 ∧ (0 : ℚ) < 2000 ∧ (1 : ℚ) < 3/2)
    ∧ (((2000 : ℚ) ≤ genTransactionTimeout 2000 (3/2) (1/2)
        ∧ genTransactionTimeout 2000 (3/2) (1/2) < 2000 * (3/2))
      ∧ txTrace { currentTimeout := 2000, timeoutCounter := 0, maxRetransmit := 4 } 5
          = ((List.range 4).map (fun k => TxEvent.sendCopy (2000 * 2 ^ k)))
              ++ [.requestTimeout, .clientTransactionTimeout]) :=
  ⟨⟨by norm_num, by norm_num, by norm_num, by norm_num⟩,
   ⟨(c6_retransmission_schedule 4 2000 (3/2) (1/2) (by norm_num) (by norm_num)
       (by norm_num) (by norm_num)).1,
    (c6_retransmission_schedule 4 2000 (3/2) (1/2) (by norm_num) (by norm_num)
       (by norm_num) (by norm_num)).2 2000⟩⟩

/-- C7: a response carrying an Observe value (different from the absent
marker -1) on a known exchange is classified late exactly when it is not
newer in the claimed sense (8388608 is 2^23); a late response only finishes
the matching transaction and, when confirmable, is answered with an empty
ACK, and no response event is emitted for it. -/
theorem c7_late_observe_filter (cs : ClientState) (exchangeKey : String)
    (response : Message) (transactionKey : String) (ex : ExchangeState)
    (hex : alookup cs.exchanges exchangeKey = some ex)
    (hobs : response.getObserve ≠ -1) :
    (ClientExchange.isLateObserveResponse ex response = true
      ↔ ¬ ((ex.lastObserveValue < response.getObserve
              ∧ response.getObserve - ex.lastObserveValue < 8388608)
          ∨ (ex.lastObserveValue > response.getObserve
              ∧ ex.lastObserveValue - response.getObserve > 8388608)
          ∨ response.timestamp > ex.lastResponseTime + 128000))
    ∧ (ClientExchange.isLateObserveResponse ex response = true →
        (Client.handleExchangeResponse cs exchangeKey response transactionKey).2
            = (Client.handleTransaction cs ex response transactionKey).2
              ++ (if response.isConfirmable then
                    [Action.send (response.createReply 2 0),
                     Action.emit .client "message sent" (some (response.createReply 2 0))]
                  else [])
          ∧ ∀ a ∈ (Client.handleExchangeResponse cs exchangeKey response transactionKey).2,
              ∀ tgt arg, a ≠ Action.emit tgt "response" arg) := by
  have hbeq : (response.getObserve == -1) = false := by
    simpa using hobs
  have hlate : ClientExchange.isLateObserveResponse ex response
      = !((decide (ex.lastObserveValue < response.getObserve)
            && decide (response.getObserve - ex.lastObserveValue < 8388608))
          || (decide (ex.lastObserveValue > response.getObserve)
            && decide (ex.lastObserveValue - response.getObserve > 8388608))
          || decide (response.timestamp > ex.lastResponseTime + 128000)) := by
    unfold ClientExchange.isLateObserveResponse
    simp [hbeq]
  constructor
  · rw [hlate]
    simp only [Bool.not_eq_true', Bool.or_eq_false_iff, Bool.and_eq_false_iff,
      decide_eq_false_iff_not, not_or]
    tauto
  · intro hlate2
    rcases hT : Client.handleTransaction cs ex response transactionKey with ⟨cs1, acts0⟩
    have heq : (Client.handleExchangeResponse cs exchangeKey response transactionKey).2
        = acts0 ++ (if response.isConfirmable then
            [Action.send (response.createReply 2 0),
             Action.emit .client "message sent" (some (response.createReply 2 0))]
          else []) := by
      by_cases hcon : response.isConfirmable
      · simp [Client.handleExchangeResponse, hex, hT, hlate2, hcon,
          Client.sendAckReply, Client.sendMessage]
      · simp [Client.handleExchangeResponse, hex, hT, hlate2, hcon]
    refine ⟨by rw [heq], ?_⟩
    intro a ha tgt arg
    rw [heq] at ha
    rcases List.mem_append.mp ha with h0 | h1
    · obtain ⟨req, rfl⟩ := handleTransaction_acts cs ex response transactionKey a
        (by rw [hT]; exact h0)
      intro h
      simp at h
    · split at h1
      · simp only [List.mem_cons, List.not_mem_nil, or_false] at h1
        rcases h1 with rfl | rfl <;> intro h <;> simp at h
      · simp at h1

/-- Witness for C7 at the concrete late notification: Observe value 4 after
value 5 within the late window. -/
theorem c7_late_observe_filter_witness :
    (alookup c7ClientState.exchanges "j" = some c7Exchange
      ∧ c7Response.getObserve ≠ -1)
    ∧ ((ClientExchange.isLateObserveResponse c7Exchange c7Response = true
        ↔ ¬ ((c7Exchange.lastObserveValue < c7Response.getObserve
                ∧ c7Response.getObserve - c7Exchange.lastObserveValue < 8388608)
            ∨ (c7Exchange.lastObserveValue > c7Response.getObserve
                ∧ c7Exchange.lastObserveValue - c7Response.getObserve > 8388608)
            ∨ c7Response.timestamp > c7Exchange.lastResponseTime + 128000))
      ∧ (ClientExchange.isLateObserveResponse c7Exchange c7Response = true →
          (Client.handleExchangeResponse c7ClientState "j" c7Response "t").2
              = (Client.handleTransaction c7ClientState c7Exchange c7Response "t").2
                ++ (if c7Response.isConfirmable then
                      [Action.send (c7Response.createReply 2 0),
                       Action.emit .client "message sent"
                         (some (c7Response.createReply 2 0))]
                    else [])
            ∧ ∀ a ∈ (Client.handleExchangeResponse c7ClientState "j" c7Response "t").2,
                ∀ tgt arg, a ≠ Action.emit tgt "response" arg)) :=
  ⟨⟨by decide, by decide⟩,
   c7_late_observe_filter c7ClientState "j" c7Response "t" c7Exchange (by decide) (by decide)⟩

end H5Coap
